import Mathlib

/-!
Shallow embedding of the sbpf interpreter core (src/interpreter.rs, src/vm.rs).

Machine integers are modelled as `Nat` (unsigned words) and `Int` (signed
views), with wrap-around made explicit through `% 2^w`.  Unannotated Rust
arithmetic is given release semantics (two's-complement wrap-around).
A Rust runtime abort (out-of-bounds slice index, division by a zero that the
code does not check) is modelled as the `none` branch of `Option`; interpreter
faults raised via the `throw_error!` macro are ordinary values.
The host is little-endian, so `to_le` is the identity and `to_be` is a
byte swap.

Parts of the repository that the two given sources use but that are not in
`src/` (the `UnifiedAddress`/taint primitives of the instrument crates, the
memory mapping, the numeric opcode table of the `ebpf` module) are modelled
from the specification; each such definition carries a doc comment saying so.
-/

set_option maxRecDepth 16000

/-- Wrap a natural number to 64 bits (`u64` arithmetic). -/
def wrap64 (n : Nat) : Nat := n % 18446744073709551616

/-- Wrapping `u64` subtraction. -/
def wsub64 (a b : Nat) : Nat := (a + 18446744073709551616 - b % 18446744073709551616) % 18446744073709551616

/-- Low `w` bits of an integer, as an unsigned value (the Rust cast `as uN`). -/
def intToU (w : Nat) (z : Int) : Nat := (z % ((2 : Int) ^ w)).toNat

/-- Reinterpret the low `w` bits of a natural number as a signed `w`-bit value. -/
def toSigned (w : Nat) (n : Nat) : Int :=
  if n % 2 ^ w < 2 ^ (w - 1) then ((n % 2 ^ w : Nat) : Int) else ((n % 2 ^ w : Nat) : Int) - 2 ^ w

/-- The Rust cast of a `u64` value to `u32`. -/
def toU32 (n : Nat) : Nat := n % 4294967296

/-- The Rust cast of a `u64` value to `i32`. -/
def toI32 (n : Nat) : Int := toSigned 32 n

/-- The Rust reinterpretation of a `u64` value as `i64`. -/
def toI64 (n : Nat) : Int := toSigned 64 n

/-- Two's-complement wrap of an integer at width `w` (Rust `wrapping_*` on `iw`). -/
def wrapI (w : Nat) (z : Int) : Int := toSigned w (intToU w z)

/-- Little-endian byte list of the low `w` bytes of a value (`to_le_bytes`). -/
def bytesLE (w v : Nat) : List Nat := (List.range w).map (fun i => v / 2 ^ (8 * i) % 256)

/-- Byte-reversal of the low `w` bytes of a value (`to_be` on a little-endian host). -/
def bswap (w v : Nat) : Nat := (List.range w).foldl (fun acc i => acc * 256 + v / 2 ^ (8 * i) % 256) 0

/-- Value of a little-endian byte list. -/
def ofBytesLE (l : List Nat) : Nat := l.foldr (fun b acc => b % 256 + 256 * acc) 0

/-- Fault kinds surfaced by the interpreter (`EbpfError` in src/error.rs as used here). -/
inductive EbpfError where
  | ExecutionOverrun
  | CallOutsideTextSegment
  | CallDepthExceeded
  | DivideByZero
  | DivideOverflow
  | InvalidInstruction
  | UnsupportedInstruction
  | ExceededMaxInstructions
  | AccessViolation
  | SyscallFailed
deriving DecidableEq, Repr

/-- Program result, `ProgramResult = Ok(u64) | Err(EbpfError)`. -/
inductive ProgResult where
  | ok (v : Nat)
  | error (e : EbpfError)
deriving DecidableEq, Repr

/-- Taint attached to one byte.  Modelled from the spec: `TaintState` of
novafuzz_types (not under src/): `Clean` or `Tainted(origin)`. -/
inductive TaintState where
  | Clean
  | Tainted (origin : Nat)
deriving DecidableEq, Repr

/-- Whether a taint state is tainted (`TaintState::is_tainted`). -/
def TaintState.is_tainted : TaintState → Bool
  | .Clean => false
  | .Tainted _ => true

/-- Unified taint address.  Modelled from the spec: a tagged value naming a
register byte or a guest memory byte (novafuzz_types `UnifiedAddress`, not
under src/).  The `Immediate` sentinel is encoded as `Memory 0`, exactly as
the interpreter source writes it. -/
inductive UnifiedAddress where
  | Register (register : Nat) (offset : Nat)
  | Memory (address : Nat)
deriving DecidableEq, Repr

/-- Modelled from the spec: `address_mapping(base, width)` produces `width`
consecutive unified addresses beginning at `base`; a base below 12 denotes a
register slot (register-byte addresses), any other base a guest memory
address. -/
def address_mapping (base : Nat) (width : Nat) : List UnifiedAddress :=
  (List.range width).map (fun i =>
    if base < 12 then UnifiedAddress.Register base i
    else UnifiedAddress.Memory (wrap64 (base + i)))

/-- Address record of a comparison operand: unified address, observed byte,
taint state (novafuzz_types `AddressRecord`, modelled from the spec). -/
structure AddressRecord where
  addr : UnifiedAddress
  value : Nat
  taint : TaintState
deriving DecidableEq, Repr

/-- Recorded comparison fact (novafuzz_types `InstructionRecord`, modelled
from the spec). -/
structure InstructionRecord where
  opcode : Nat
  src : AddressRecord
  dst : AddressRecord
deriving DecidableEq, Repr

/-- One call frame (`CallFrame` in src/vm.rs). -/
structure CallFrame where
  caller_saved_registers : Fin 4 → Nat
  frame_pointer : Nat
  target_pc : Nat

/-- Dialect capability flags (`SBPFVersion` predicates), plus the
dialect-specific `calculate_call_imm_target_pc` resolver, which is outside
src/ and therefore kept abstract as a function field. -/
structure VersionFlags where
  disable_lddw : Bool
  move_memory_instruction_classes : Bool
  enable_pqr : Bool
  disable_neg : Bool
  disable_le : Bool
  swap_sub_reg_imm_operands : Bool
  explicit_sign_extension_of_results : Bool
  callx_uses_src_reg : Bool
  static_syscalls : Bool
  dynamic_stack_frames : Bool
  calc_call_imm_target_pc : Nat → Int → Nat

/-- The configuration fields the interpreter consults (`Config` in src/vm.rs). -/
structure Config where
  max_call_depth : Nat
  stack_frame_size : Nat
  enable_stack_frame_gaps : Bool
  enable_instruction_meter : Bool
  enable_instruction_tracing : Bool

/-- Modelled from the spec: the memory mapping (src/memory_region.rs is not
under src/), reduced to byte granularity: a partial byte map plus a
per-byte writable flag.  `load`/`store` succeed only when every byte of the
range is mapped (and writable, for stores); otherwise they fail with
`AccessViolation`. -/
structure Mem where
  read_byte : Nat → Option Nat
  writable_byte : Nat → Bool

/-- Modelled from the spec: `load<T>(addr)` reads `w` little-endian bytes. -/
def Mem.load (m : Mem) (w : Nat) (addr : Nat) : Except EbpfError Nat :=
  match (List.range w).mapM (fun i => m.read_byte (addr + i)) with
  | some bs => .ok (ofBytesLE bs)
  | none => .error .AccessViolation

/-- Modelled from the spec: `store<T>(value, addr)` writes `w` little-endian
bytes, failing if any byte of the range is unmapped or not writable. -/
def Mem.store (m : Mem) (w : Nat) (value : Nat) (addr : Nat) : Except EbpfError Mem :=
  if (List.range w).all (fun i => (m.read_byte (addr + i)).isSome && m.writable_byte (addr + i)) then
    .ok { m with read_byte := fun a =>
      if addr ≤ a ∧ a < addr + w then some (value / 2 ^ (8 * (a - addr)) % 256) else m.read_byte a }
  else .error .AccessViolation

/-- A builtin (syscall) function.  Modelled from the spec: it receives
registers 1..5 and produces the program result that `invoke_function`
writes back into the VM. -/
def BuiltinFn : Type := Nat → Nat → Nat → Nat → Nat → ProgResult

/-- One decoded instruction word (`Insn` of the ebpf module, modelled from
the spec: opcode byte, dst/src register nibbles, signed 16-bit offset,
signed 32-bit immediate, and the instruction index `ptr`). -/
structure Insn where
  ptr : Nat
  opc : Nat
  dst : Nat
  src : Nat
  off : Int
  imm : Int
deriving DecidableEq, Repr

/-- Modelled from the spec: start of the program text region
(`MM_PROGRAM_TEXT_START` of novafuzz_types). -/
def MM_PROGRAM_TEXT_START : Nat := 4294967296

/-- The whole machine state the two source files mutate: the `Interpreter`
register file, the `EbpfVm` fields it touches, the `TraceEngine` state, and
the parts of the `Executable` contract it consults. -/
structure Machine where
  config : Config
  version : VersionFlags
  function_registry : Nat → Option Nat
  loader_registry : Nat → Option BuiltinFn
  program_vm_addr : Nat
  program : List Nat
  reg : Fin 12 → Nat
  vm_registers : Fin 12 → Nat
  call_depth : Nat
  call_frames : List CallFrame
  previous_instruction_meter : Nat
  due_insn_count : Nat
  program_result : ProgResult
  mem : Mem
  taint_state : UnifiedAddress → TaintState
  instruction_record : List InstructionRecord
  propagation_log : List (Nat × Nat × UnifiedAddress × UnifiedAddress × Nat)
  jump_log : List (Nat × Nat)
  trace_log : List (List Nat)

/-- Dynamically indexed read of the 12-slot register array (`self.reg[i]`);
an index outside the array is a Rust abort, hence `none`. -/
def regGet (r : Fin 12 → Nat) (i : Nat) : Option Nat :=
  if h : i < 12 then some (r ⟨i, h⟩) else none

/-- Dynamically indexed write of the 12-slot register array. -/
def regSet (r : Fin 12 → Nat) (i : Nat) (v : Nat) : Option (Fin 12 → Nat) :=
  if h : i < 12 then some (fun j => if j = ⟨i, h⟩ then v else r j) else none

/-- Statically indexed write of a 12-slot register array. -/
def fset (r : Fin 12 → Nat) (i : Fin 12) (v : Nat) : Fin 12 → Nat :=
  fun j => if j = i then v else r j

/-- Read one byte of program text; an out-of-range index is a Rust abort. -/
def progByte (p : List Nat) (i : Nat) : Option Nat := p.get? i

/-- Modelled from the spec: `get_insn_unchecked` decodes the 8-byte
instruction word at instruction index `pc` (opcode byte, packed dst/src
nibbles, little-endian signed 16-bit offset and 32-bit immediate). -/
def get_insn_unchecked (p : List Nat) (pc : Nat) : Option Insn :=
  let off := wrap64 (pc * 8)
  match progByte p off, progByte p (off + 1), progByte p (off + 2), progByte p (off + 3),
        progByte p (off + 4), progByte p (off + 5), progByte p (off + 6), progByte p (off + 7) with
  | some b0, some b1, some b2, some b3, some b4, some b5, some b6, some b7 =>
    some { ptr := pc, opc := b0, dst := b1 % 16, src := b1 / 16 % 16,
           off := toSigned 16 (b2 % 256 + 256 * (b3 % 256)),
           imm := toSigned 32 (b4 % 256 + 256 * (b5 % 256) + 65536 * (b6 % 256) + 16777216 * (b7 % 256)) }
  | _, _, _, _, _, _, _, _ => none

/-- Modelled from the spec: `TaintEngine::propagate` — the taint of `toA`
becomes that of `fromA` (a tainted source propagates its origin, a clean
source clears the destination); the event is recorded with the propagating
instruction's location. -/
def propagate (s : Machine) (ptr_addr opcode : Nat) (fromA toA : UnifiedAddress) (value : Nat) : Machine :=
  { s with
    taint_state := fun a => if a = toA then s.taint_state fromA else s.taint_state a,
    propagation_log := s.propagation_log ++ [(ptr_addr, opcode, fromA, toA, value)] }

/-- Modelled from the spec: `clear_taint_vector` writes `Clean` at every
listed address. -/
def clear_taint_vector (s : Machine) (addrs : List UnifiedAddress) : Machine :=
  { s with taint_state := fun a => if a ∈ addrs then TaintState.Clean else s.taint_state a }

/-- `Interpreter::taint_propagate_array`: propagate `length` bytes from the
addresses of `fromBase` to the addresses of `toBase`, byte values taken from
`values`. -/
def taint_propagate_array (s : Machine) (ptr_addr opcode : Nat) (fromBase toBase : Nat) (length : Nat) (values : List Nat) : Machine :=
  let froms := address_mapping fromBase length
  let tos := address_mapping toBase length
  (List.range length).foldl
    (fun st i => propagate st ptr_addr opcode (froms.getD i (UnifiedAddress.Memory 0))
      (tos.getD i (UnifiedAddress.Memory 0)) (values.getD i 0)) s

/-- `Interpreter::taint_reg_compare`: for each of `addr_length` byte
positions, look up source and destination taint and append an instruction
record whenever either is tainted.  (The length assertions of the source
hold at every call site: both value lists are 8-byte `to_le_bytes` views.) -/
def taint_reg_compare (s : Machine) (opcode : Nat) (src : Nat) (src_value : List Nat) (dst : Nat) (dst_value : List Nat) (addr_length : Nat) : Machine :=
  let src_addrs := address_mapping src addr_length
  let dst_addrs := address_mapping dst addr_length
  (List.range addr_length).foldl
    (fun st i =>
      let dst_addr := dst_addrs.getD i (UnifiedAddress.Memory 0)
      let dst_taint := st.taint_state dst_addr
      let src_addr := src_addrs.getD i (UnifiedAddress.Memory 0)
      let src_taint := st.taint_state src_addr
      if dst_taint.is_tainted || src_taint.is_tainted then
        { st with instruction_record := st.instruction_record ++
            [{ opcode := opcode,
               src := { addr := src_addr, value := src_value.getD i 0, taint := src_taint },
               dst := { addr := dst_addr, value := dst_value.getD i 0, taint := dst_taint } }] }
      else st) s

/-- `Interpreter::taint_imm_compare`: like `taint_reg_compare` with the
source fixed to the immediate sentinel `Memory 0` with `Clean` taint; a
record is appended whenever the destination byte is tainted. -/
def taint_imm_compare (s : Machine) (opcode : Nat) (imm_value : List Nat) (dst : Nat) (dst_value : List Nat) (addr_length : Nat) : Machine :=
  let dst_addrs := address_mapping dst addr_length
  (List.range addr_length).foldl
    (fun st i =>
      let dst_addr := dst_addrs.getD i (UnifiedAddress.Memory 0)
      let dst_taint := st.taint_state dst_addr
      if dst_taint.is_tainted then
        { st with instruction_record := st.instruction_record ++
            [{ opcode := opcode,
               src := { addr := UnifiedAddress.Memory 0, value := imm_value.getD i 0, taint := TaintState.Clean },
               dst := { addr := dst_addr, value := dst_value.getD i 0, taint := dst_taint } }] }
      else st) s

/-- `JumpTracer::trace_jump`: append one `(from_pc, to_pc)` edge. -/
def trace_jump (s : Machine) (from_pc to_pc : Nat) : Machine :=
  { s with jump_log := s.jump_log ++ [(from_pc, to_pc)] }

/-- The state mutation of the `throw_error!` macro: commit the interpreter's
`reg[11]` to the VM register slot 11 and write the fault to the program
result. -/
def throwSt (s : Machine) (e : EbpfError) : Machine :=
  { s with vm_registers := fset s.vm_registers 11 (s.reg 11), program_result := .error e }

/-- `Interpreter::push_frame`: save registers 6..9, the frame pointer and
the return pc into `call_frames[call_depth]`, increment the depth, fault
`CallDepthExceeded` when the new depth equals the configured maximum, and
otherwise advance the frame pointer under static-frame dialects.  The `Bool`
is the Rust return value (`false` after the fault was thrown); indexing the
frame vector out of range is a Rust abort (`none`). -/
def push_frame (s : Machine) : Option (Machine × Bool) :=
  if s.call_depth < s.call_frames.length then
    let frame : CallFrame :=
      { caller_saved_registers := fun i => s.reg ⟨6 + i.val, by omega⟩,
        frame_pointer := s.reg 10,
        target_pc := wrap64 (s.reg 11 + 1) }
    let s1 := { s with call_frames := s.call_frames.set s.call_depth frame,
                       call_depth := s.call_depth + 1 }
    if s1.call_depth = s1.config.max_call_depth then
      some (throwSt s1 .CallDepthExceeded, false)
    else
      if s1.version.dynamic_stack_frames = false then
        let stack_frame_size := s1.config.stack_frame_size * (if s1.config.enable_stack_frame_gaps then 2 else 1)
        some ({ s1 with reg := fset s1.reg 10 (wrap64 (s1.reg 10 + stack_frame_size)) }, true)
      else
        some (s1, true)
  else none

/-- `Interpreter::sign_extension`: how a 32-bit ALU result is widened to the
64-bit slot under the dialect. -/
def sign_extension (v : VersionFlags) (value : Int) : Nat :=
  if v.explicit_sign_extension_of_results then intToU 32 value else intToU 64 value

/-- The `check_pc!` macro: `some target` when `target * 8` is a valid 8-byte
offset into program text, `none` when the caller must fault
`CallOutsideTextSegment`. -/
def check_pc (s : Machine) (target_pc : Nat) : Option Nat :=
  if target_pc * 8 < 18446744073709551616 ∧ target_pc * 8 + 8 ≤ s.program.length then some target_pc
  else none

/-- `Interpreter::dispatch_syscall`: sync the outstanding meter count, copy
registers 0..5 to the VM, invoke the builtin (which writes the program
result), and zero the due count. -/
def dispatch_syscall (s : Machine) (f : BuiltinFn) : Machine :=
  let s1 := { s with due_insn_count := wsub64 s.previous_instruction_meter s.due_insn_count }
  let s2 := { s1 with vm_registers := fun j => if j.val < 6 then s1.reg j else s1.vm_registers j }
  let s3 := { s2 with program_result := f (s2.reg 1) (s2.reg 2) (s2.reg 3) (s2.reg 4) (s2.reg 5) }
  { s3 with due_insn_count := 0 }

/-- How one step ends, before the final write-back: continue at `next_pc`,
fault via `throw_error!`, terminate with `Ok(reg[0])`, or return false after
a failed syscall (whose error the builtin already wrote). -/
inductive StepEnd where
  | cont (s : Machine) (next_pc : Nat)
  | faulted (s : Machine) (e : EbpfError)
  | finished (s : Machine) (v : Nat)
  | sysErr (s : Machine)

/-- The machine state carried by a step ending. -/
def stateOf : StepEnd → Machine
  | .cont s _ => s
  | .faulted s _ => s
  | .finished s _ => s
  | .sysErr s => s

/-- Result of one ALU computation: a value, an interpreter fault, or a Rust
abort (unchecked division by zero). -/
inductive AluRes where
  | val (n : Nat)
  | fault (e : EbpfError)
  | crash

/-- Generic handler for an arm that reads `reg[dst]`, computes, and writes
`reg[dst]`. -/
def alu1_arm (s : Machine) (dst next_pc : Nat) (g : Nat → AluRes) : Option StepEnd :=
  match regGet s.reg dst with
  | none => none
  | some d =>
    match g d with
    | .fault e => some (.faulted s e)
    | .crash => none
    | .val v =>
      match regSet s.reg dst v with
      | none => none
      | some r => some (.cont { s with reg := r } next_pc)

/-- Generic handler for an arm that reads `reg[dst]` and `reg[src]`,
computes, and writes `reg[dst]`. -/
def alu2_arm (s : Machine) (dst src next_pc : Nat) (g : Nat → Nat → AluRes) : Option StepEnd :=
  match regGet s.reg dst with
  | none => none
  | some d =>
    match regGet s.reg src with
    | none => none
    | some r =>
      match g d r with
      | .fault e => some (.faulted s e)
      | .crash => none
      | .val v =>
        match regSet s.reg dst v with
        | none => none
        | some rr => some (.cont { s with reg := rr } next_pc)

/-- Handler for the register-operand divide/modulo arms: read `reg[src]`,
run the `throw_error!(DivideByZero ...)` check on it, then read `reg[dst]`,
run the optional overflow check, and compute. -/
def div_reg_arm (s : Machine) (dst src next_pc : Nat) (chkSrc : Nat → Option EbpfError)
    (chk2 : Nat → Nat → Option EbpfError) (g : Nat → Nat → Nat) : Option StepEnd :=
  match regGet s.reg src with
  | none => none
  | some r =>
    match chkSrc r with
    | some e => some (.faulted s e)
    | none =>
      match regGet s.reg dst with
      | none => none
      | some d =>
        match chk2 d r with
        | some e => some (.faulted s e)
        | none =>
          match regSet s.reg dst (g d r) with
          | none => none
          | some rr => some (.cont { s with reg := rr } next_pc)

/-- The instrument pointer address recorded with every taint propagation:
the instruction's byte offset plus the program text base. -/
def ptrAddrOf (insn : Insn) : Nat := wrap64 (wrap64 (insn.ptr * 8) + MM_PROGRAM_TEXT_START)

/-- Guest address of a memory operand: `reg value + sign-extended offset`,
wrapped to `u64`. -/
def vmAddrOf (rv : Nat) (off : Int) : Nat := intToU 64 (toI64 rv + off)

/-- Handler shared by all `LD_*_REG` / `LD_xB_REG` load arms. -/
def load_arm (s : Machine) (insn : Insn) (w next_pc : Nat) : Option StepEnd :=
  match regGet s.reg insn.src with
  | none => none
  | some sv =>
    let vm_addr := vmAddrOf sv insn.off
    match s.mem.load w vm_addr with
    | .error e => some (.faulted s e)
    | .ok v =>
      match regSet s.reg insn.dst v with
      | none => none
      | some r =>
        let s1 := { s with reg := r }
        let s2 := taint_propagate_array s1 (ptrAddrOf insn) insn.opc vm_addr insn.dst w (bytesLE 8 v)
        some (.cont s2 next_pc)

/-- Handler shared by all `ST_*_IMM` / `ST_xB_IMM` store arms. -/
def store_imm_arm (s : Machine) (insn : Insn) (w next_pc : Nat) : Option StepEnd :=
  match regGet s.reg insn.dst with
  | none => none
  | some dv =>
    let vm_addr := vmAddrOf dv insn.off
    match s.mem.store w (intToU (8 * w) insn.imm) vm_addr with
    | .error e => some (.faulted s e)
    | .ok m =>
      let s1 := { s with mem := m }
      let s2 := clear_taint_vector s1 (address_mapping vm_addr w)
      some (.cont s2 next_pc)

/-- Handler shared by all `ST_*_REG` / `ST_xB_REG` store arms. -/
def store_reg_arm (s : Machine) (insn : Insn) (w next_pc : Nat) : Option StepEnd :=
  match regGet s.reg insn.dst with
  | none => none
  | some dv =>
    let vm_addr := vmAddrOf dv insn.off
    match regGet s.reg insn.src with
    | none => none
    | some sv =>
      match s.mem.store w (sv % 2 ^ (8 * w)) vm_addr with
      | .error e => some (.faulted s e)
      | .ok m =>
        let s1 := { s with mem := m }
        let s2 := taint_propagate_array s1 (ptrAddrOf insn) insn.opc insn.src vm_addr w (bytesLE 8 sv)
        some (.cont s2 next_pc)

/-- Handler for `MOV32_IMM` / `MOV64_IMM`: write the immediate and clear the
destination register's taint. -/
def mov_imm_arm (s : Machine) (dst next_pc value : Nat) : Option StepEnd :=
  match regSet s.reg dst value with
  | none => none
  | some r =>
    let s1 := { s with reg := r }
    let s2 := clear_taint_vector s1 (address_mapping dst 8)
    some (.cont s2 next_pc)

/-- Handler for `MOV32_REG` / `MOV64_REG`: write the (dialect-converted)
source value and propagate all 8 taint bytes from src to dst; the observed
byte values logged are `reg[src].to_le_bytes()` read after the dst write
(they differ from the moved value when dst = src under `MOV32_REG`). -/
def mov_reg_arm (s : Machine) (insn : Insn) (next_pc : Nat) (conv : Nat → Nat) : Option StepEnd :=
  match regGet s.reg insn.src with
  | none => none
  | some sv =>
    match regSet s.reg insn.dst (conv sv) with
    | none => none
    | some r =>
      match regGet r insn.src with
      | none => none
      | some sv2 =>
        let s1 := { s with reg := r }
        let s2 := taint_propagate_array s1 (ptrAddrOf insn) insn.opc insn.src insn.dst 8 (bytesLE 8 sv2)
        some (.cont s2 next_pc)

/-- Handler for `LD_DW_IMM`: augment the immediate from the second word,
write it, clear the destination taint, and skip the extra word. -/
def lddw_arm (s : Machine) (insn : Insn) (next_pc : Nat) : Option StepEnd :=
  let off := (insn.ptr + 1) * 8 + 4
  match progByte s.program off, progByte s.program (off + 1), progByte s.program (off + 2), progByte s.program (off + 3) with
  | some c0, some c1, some c2, some c3 =>
    let hi := c0 % 256 + 256 * (c1 % 256) + 65536 * (c2 % 256) + 16777216 * (c3 % 256)
    let imm2 := intToU 32 insn.imm + 4294967296 * hi
    match regSet s.reg insn.dst imm2 with
    | none => none
    | some r =>
      let s1 := { s with reg := r }
      let s2 := clear_taint_vector s1 (address_mapping insn.dst 8)
      let s3 := { s2 with reg := fset s2.reg 11 (wrap64 (s2.reg 11 + 1)) }
      some (.cont s3 (wrap64 (next_pc + 1)))
  | _, _, _, _ => none

/-- Handler for `JA`. -/
def ja_arm (s : Machine) (insn : Insn) (next_pc : Nat) : Option StepEnd :=
  let target := intToU 64 (toI64 next_pc + insn.off)
  some (.cont (trace_jump s (s.reg 11) target) target)

/-- Handler shared by the immediate-operand conditional jumps: record the
taint comparison, resolve the branch, and trace the resolved edge. -/
def cond_jmp_imm (s : Machine) (insn : Insn) (next_pc : Nat) (pred : Nat → Bool) : Option StepEnd :=
  match regGet s.reg insn.dst with
  | none => none
  | some d =>
    let s1 := taint_imm_compare s insn.opc (bytesLE 8 (intToU 64 insn.imm)) insn.dst (bytesLE 8 d) 8
    let npc := if pred d then intToU 64 (toI64 next_pc + insn.off) else next_pc
    let s2 := trace_jump s1 (s1.reg 11) npc
    some (.cont s2 npc)

/-- Handler shared by the register-operand conditional jumps. -/
def cond_jmp_reg (s : Machine) (insn : Insn) (next_pc : Nat) (pred : Nat → Nat → Bool) : Option StepEnd :=
  match regGet s.reg insn.dst with
  | none => none
  | some d =>
    match regGet s.reg insn.src with
    | none => none
    | some r =>
      let s1 := taint_reg_compare s insn.opc insn.src (bytesLE 8 r) insn.dst (bytesLE 8 d) 8
      let npc := if pred d r then intToU 64 (toI64 next_pc + insn.off) else next_pc
      let s2 := trace_jump s1 (s1.reg 11) npc
      some (.cont s2 npc)

/-- Handler for `LE`/`BE`: the immediate is examined first (an invalid
immediate faults before any register access), then the conversion is applied
to `reg[dst]`. -/
def endian_arm (s : Machine) (dst next_pc : Nat) (conv : Option (Nat → Nat)) : Option StepEnd :=
  match conv with
  | none => some (.faulted s .InvalidInstruction)
  | some f => alu1_arm s dst next_pc (fun d => .val (f d))

/-- The `CALL_REG` target register read: `reg[src]` under
`callx_uses_src_reg`, otherwise `reg[insn.imm as usize]` (unchecked). -/
def callx_target (s : Machine) (insn : Insn) : Option Nat :=
  if s.version.callx_uses_src_reg then regGet s.reg insn.src else regGet s.reg (intToU 64 insn.imm)

/-- Handler for `CALL_REG`. -/
def call_reg_arm (s : Machine) (insn : Insn) (_next_pc : Nat) : Option StepEnd :=
  let from_pc := s.reg 11
  match callx_target s insn with
  | none => none
  | some target_pc =>
    match push_frame s with
    | none => none
    | some (s1, ok) =>
      if ok = false then some (.faulted s1 .CallDepthExceeded)
      else
        let q := wsub64 target_pc s1.program_vm_addr / 8
        match check_pc s1 q with
        | none => some (.faulted s1 .CallOutsideTextSegment)
        | some npc =>
          let s2 := trace_jump s1 from_pc npc
          if s2.version.static_syscalls = true ∧ s2.function_registry (toU32 npc) = none then
            some (.faulted s2 .UnsupportedInstruction)
          else some (.cont s2 npc)

/-- The `(false, Some(function))` test of the `CALL_IMM` arm: a loader
registry hit under a non-static-syscalls dialect. -/
def v0_syscall_lookup (s : Machine) (insn : Insn) : Option BuiltinFn :=
  if s.version.static_syscalls = false then s.loader_registry (intToU 32 insn.imm) else none

/-- Handler for `CALL_IMM`: the SBPFv0 syscall path when static syscalls are
off and the loader registry knows the key, else a BPF-to-BPF call through
the function registry, else `UnsupportedInstruction`. -/
def call_imm_arm (s : Machine) (insn : Insn) (next_pc : Nat) : Option StepEnd :=
  let from_pc := s.reg 11
  match v0_syscall_lookup s insn with
  | some f =>
    let s1 := dispatch_syscall s f
    match s1.program_result with
    | .ok v => some (.cont { s1 with reg := fset s1.reg 0 v } next_pc)
    | .error _ => some (.sysErr s1)
  | none =>
    match s.function_registry (s.version.calc_call_imm_target_pc (s.reg 11) insn.imm) with
    | some target_pc =>
      match push_frame s with
      | none => none
      | some (s1, ok) =>
        if ok = false then some (.faulted s1 .CallDepthExceeded)
        else
          match check_pc s1 target_pc with
          | none => some (.faulted s1 .CallOutsideTextSegment)
          | some npc => some (.cont (trace_jump s1 from_pc npc) npc)
    | none => some (.faulted s .UnsupportedInstruction)

/-- Handler for `SYSCALL` (static-syscalls dialects); an unknown key is only
a debug assertion in the source, i.e. a release no-op that falls through. -/
def syscall_arm (s : Machine) (insn : Insn) (next_pc : Nat) : Option StepEnd :=
  match s.loader_registry (intToU 32 insn.imm) with
  | some f =>
    let s1 := dispatch_syscall s f
    match s1.program_result with
    | .ok v => some (.cont { s1 with reg := fset s1.reg 0 v } next_pc)
    | .error _ => some (.sysErr s1)
  | none => some (.cont s next_pc)

/-- Handler for `RETURN`/`EXIT`: dialect legality, terminating exit at call
depth zero (with the final meter validation), or frame pop. -/
def exit_arm (s : Machine) (insn : Insn) (_next_pc : Nat) : Option StepEnd :=
  let from_pc := s.reg 11
  if (insn.opc = 0x95 ∧ s.version.static_syscalls = true) ∨ (insn.opc = 0x9d ∧ s.version.static_syscalls = false) then
    some (.faulted s .UnsupportedInstruction)
  else if s.call_depth = 0 then
    if s.config.enable_instruction_meter = true ∧ s.due_insn_count > s.previous_instruction_meter then
      some (.faulted s .ExceededMaxInstructions)
    else
      some (.finished s (s.reg 0))
  else
    let s1 := { s with call_depth := s.call_depth - 1 }
    match s1.call_frames.get? s1.call_depth with
    | none => none
    | some frame =>
      let r0 := fset s1.reg 10 frame.frame_pointer
      let r1 := fset r0 6 (frame.caller_saved_registers 0)
      let r2 := fset r1 7 (frame.caller_saved_registers 1)
      let r3 := fset r2 8 (frame.caller_saved_registers 2)
      let r4 := fset r3 9 (frame.caller_saved_registers 3)
      let s2 := { s1 with reg := r4 }
      match check_pc s2 frame.target_pc with
      | none => some (.faulted s2 .CallOutsideTextSegment)
      | some npc => some (.cont (trace_jump s2 from_pc npc) npc)

/-- One tag per match arm of `Interpreter::step`'s dispatch. -/
inductive ArmTag where
  | LD_DW_IMM | LD_B_REG | LD_H_REG | LD_W_REG | LD_DW_REG
  | ST_B_IMM | ST_H_IMM | ST_W_IMM | ST_DW_IMM
  | ST_B_REG | ST_H_REG | ST_W_REG | ST_DW_REG
  | ADD32_IMM | ADD32_REG | SUB32_IMM | SUB32_REG | MUL32_IMM | MUL32_REG
  | LD_1B_REG | DIV32_IMM | DIV32_REG | LD_2B_REG
  | OR32_IMM | OR32_REG | AND32_IMM | AND32_REG | LSH32_IMM | LSH32_REG
  | RSH32_IMM | RSH32_REG | NEG32 | LD_4B_REG | MOD32_IMM | MOD32_REG | LD_8B_REG
  | XOR32_IMM | XOR32_REG | MOV32_IMM | MOV32_REG | ARSH32_IMM | ARSH32_REG | LE | BE
  | ADD64_IMM | ADD64_REG | SUB64_IMM | SUB64_REG | MUL64_IMM | ST_1B_IMM
  | MUL64_REG | ST_1B_REG | DIV64_IMM | ST_2B_IMM | DIV64_REG | ST_2B_REG
  | OR64_IMM | OR64_REG | AND64_IMM | AND64_REG | LSH64_IMM | LSH64_REG
  | RSH64_IMM | RSH64_REG | ST_4B_IMM | NEG64 | ST_4B_REG
  | MOD64_IMM | ST_8B_IMM | MOD64_REG | ST_8B_REG
  | XOR64_IMM | XOR64_REG | MOV64_IMM | MOV64_REG | ARSH64_IMM | ARSH64_REG | HOR64_IMM
  | LMUL32_IMM | LMUL32_REG | LMUL64_IMM | LMUL64_REG
  | UHMUL64_IMM | UHMUL64_REG | SHMUL64_IMM | SHMUL64_REG
  | UDIV32_IMM | UDIV32_REG | UDIV64_IMM | UDIV64_REG
  | UREM32_IMM | UREM32_REG | UREM64_IMM | UREM64_REG
  | SDIV32_IMM | SDIV32_REG | SDIV64_IMM | SDIV64_REG
  | SREM32_IMM | SREM32_REG | SREM64_IMM | SREM64_REG
  | JA | JEQ_IMM | JEQ_REG | JGT_IMM | JGT_REG | JGE_IMM | JGE_REG
  | JLT_IMM | JLT_REG | JLE_IMM | JLE_REG | JSET_IMM | JSET_REG | JNE_IMM | JNE_REG
  | JSGT_IMM | JSGT_REG | JSGE_IMM | JSGE_REG | JSLT_IMM | JSLT_REG | JSLE_IMM | JSLE_REG
  | CALL_REG | CALL_IMM | SYSCALL | RETURN_EXIT
  | UNSUPPORTED
deriving DecidableEq, Repr

/-- Arm selection of `Interpreter::step`, transcribed in source order (the
numeric opcode values follow the eBPF/SBPF encoding the spec's dense opcode
space refers to; the ebpf module itself is not under src/). -/
def decodeArm (v : VersionFlags) (opc : Nat) : ArmTag :=
  if opc = 0x18 ∧ v.disable_lddw = false then .LD_DW_IMM
  else if opc = 0x71 ∧ v.move_memory_instruction_classes = false then .LD_B_REG
  else if opc = 0x69 ∧ v.move_memory_instruction_classes = false then .LD_H_REG
  else if opc = 0x61 ∧ v.move_memory_instruction_classes = false then .LD_W_REG
  else if opc = 0x79 ∧ v.move_memory_instruction_classes = false then .LD_DW_REG
  else if opc = 0x72 ∧ v.move_memory_instruction_classes = false then .ST_B_IMM
  else if opc = 0x6a ∧ v.move_memory_instruction_classes = false then .ST_H_IMM
  else if opc = 0x62 ∧ v.move_memory_instruction_classes = false then .ST_W_IMM
  else if opc = 0x7a ∧ v.move_memory_instruction_classes = false then .ST_DW_IMM
  else if opc = 0x73 ∧ v.move_memory_instruction_classes = false then .ST_B_REG
  else if opc = 0x6b ∧ v.move_memory_instruction_classes = false then .ST_H_REG
  else if opc = 0x63 ∧ v.move_memory_instruction_classes = false then .ST_W_REG
  else if opc = 0x7b ∧ v.move_memory_instruction_classes = false then .ST_DW_REG
  else if opc = 0x04 then .ADD32_IMM
  else if opc = 0x0c then .ADD32_REG
  else if opc = 0x14 then .SUB32_IMM
  else if opc = 0x1c then .SUB32_REG
  else if opc = 0x24 ∧ v.enable_pqr = false then .MUL32_IMM
  else if opc = 0x2c ∧ v.enable_pqr = false then .MUL32_REG
  else if opc = 0x2c ∧ v.move_memory_instruction_classes = true then .LD_1B_REG
  else if opc = 0x34 ∧ v.enable_pqr = false then .DIV32_IMM
  else if opc = 0x3c ∧ v.enable_pqr = false then .DIV32_REG
  else if opc = 0x3c ∧ v.move_memory_instruction_classes = true then .LD_2B_REG
  else if opc = 0x44 then .OR32_IMM
  else if opc = 0x4c then .OR32_REG
  else if opc = 0x54 then .AND32_IMM
  else if opc = 0x5c then .AND32_REG
  else if opc = 0x64 then .LSH32_IMM
  else if opc = 0x6c then .LSH32_REG
  else if opc = 0x74 then .RSH32_IMM
  else if opc = 0x7c then .RSH32_REG
  else if opc = 0x84 ∧ v.disable_neg = false then .NEG32
  else if opc = 0x8c ∧ v.move_memory_instruction_classes = true then .LD_4B_REG
  else if opc = 0x94 ∧ v.enable_pqr = false then .MOD32_IMM
  else if opc = 0x9c ∧ v.enable_pqr = false then .MOD32_REG
  else if opc = 0x9c ∧ v.move_memory_instruction_classes = true then .LD_8B_REG
  else if opc = 0xa4 then .XOR32_IMM
  else if opc = 0xac then .XOR32_REG
  else if opc = 0xb4 then .MOV32_IMM
  else if opc = 0xbc then .MOV32_REG
  else if opc = 0xc4 then .ARSH32_IMM
  else if opc = 0xcc then .ARSH32_REG
  else if opc = 0xd4 ∧ v.disable_le = false then .LE
  else if opc = 0xdc then .BE
  else if opc = 0x07 then .ADD64_IMM
  else if opc = 0x0f then .ADD64_REG
  else if opc = 0x17 then .SUB64_IMM
  else if opc = 0x1f then .SUB64_REG
  else if opc = 0x27 ∧ v.enable_pqr = false then .MUL64_IMM
  else if opc = 0x27 ∧ v.move_memory_instruction_classes = true then .ST_1B_IMM
  else if opc = 0x2f ∧ v.enable_pqr = false then .MUL64_REG
  else if opc = 0x2f ∧ v.move_memory_instruction_classes = true then .ST_1B_REG
  else if opc = 0x37 ∧ v.enable_pqr = false then .DIV64_IMM
  else if opc = 0x37 ∧ v.move_memory_instruction_classes = true then .ST_2B_IMM
  else if opc = 0x3f ∧ v.enable_pqr = false then .DIV64_REG
  else if opc = 0x3f ∧ v.move_memory_instruction_classes = true then .ST_2B_REG
  else if opc = 0x47 then .OR64_IMM
  else if opc = 0x4f then .OR64_REG
  else if opc = 0x57 then .AND64_IMM
  else if opc = 0x5f then .AND64_REG
  else if opc = 0x67 then .LSH64_IMM
  else if opc = 0x6f then .LSH64_REG
  else if opc = 0x77 then .RSH64_IMM
  else if opc = 0x7f then .RSH64_REG
  else if opc = 0x87 ∧ v.move_memory_instruction_classes = true then .ST_4B_IMM
  else if opc = 0x87 ∧ v.disable_neg = false then .NEG64
  else if opc = 0x8f ∧ v.move_memory_instruction_classes = true then .ST_4B_REG
  else if opc = 0x97 ∧ v.enable_pqr = false then .MOD64_IMM
  else if opc = 0x97 ∧ v.move_memory_instruction_classes = true then .ST_8B_IMM
  else if opc = 0x9f ∧ v.enable_pqr = false then .MOD64_REG
  else if opc = 0x9f ∧ v.move_memory_instruction_classes = true then .ST_8B_REG
  else if opc = 0xa7 then .XOR64_IMM
  else if opc = 0xaf then .XOR64_REG
  else if opc = 0xb7 then .MOV64_IMM
  else if opc = 0xbf then .MOV64_REG
  else if opc = 0xc7 then .ARSH64_IMM
  else if opc = 0xcf then .ARSH64_REG
  else if opc = 0xf7 ∧ v.disable_lddw = true then .HOR64_IMM
  else if opc = 0x86 ∧ v.enable_pqr = true then .LMUL32_IMM
  else if opc = 0x8e ∧ v.enable_pqr = true then .LMUL32_REG
  else if opc = 0x96 ∧ v.enable_pqr = true then .LMUL64_IMM
  else if opc = 0x9e ∧ v.enable_pqr = true then .LMUL64_REG
  else if opc = 0x36 ∧ v.enable_pqr = true then .UHMUL64_IMM
  else if opc = 0x3e ∧ v.enable_pqr = true then .UHMUL64_REG
  else if opc = 0xb6 ∧ v.enable_pqr = true then .SHMUL64_IMM
  else if opc = 0xbe ∧ v.enable_pqr = true then .SHMUL64_REG
  else if opc = 0x46 ∧ v.enable_pqr = true then .UDIV32_IMM
  else if opc = 0x4e ∧ v.enable_pqr = true then .UDIV32_REG
  else if opc = 0x56 ∧ v.enable_pqr = true then .UDIV64_IMM
  else if opc = 0x5e ∧ v.enable_pqr = true then .UDIV64_REG
  else if opc = 0x66 ∧ v.enable_pqr = true then .UREM32_IMM
  else if opc = 0x6e ∧ v.enable_pqr = true then .UREM32_REG
  else if opc = 0x76 ∧ v.enable_pqr = true then .UREM64_IMM
  else if opc = 0x7e ∧ v.enable_pqr = true then .UREM64_REG
  else if opc = 0xc6 ∧ v.enable_pqr = true then .SDIV32_IMM
  else if opc = 0xce ∧ v.enable_pqr = true then .SDIV32_REG
  else if opc = 0xd6 ∧ v.enable_pqr = true then .SDIV64_IMM
  else if opc = 0xde ∧ v.enable_pqr = true then .SDIV64_REG
  else if opc = 0xe6 ∧ v.enable_pqr = true then .SREM32_IMM
  else if opc = 0xee ∧ v.enable_pqr = true then .SREM32_REG
  else if opc = 0xf6 ∧ v.enable_pqr = true then .SREM64_IMM
  else if opc = 0xfe ∧ v.enable_pqr = true then .SREM64_REG
  else if opc = 0x05 then .JA
  else if opc = 0x15 then .JEQ_IMM
  else if opc = 0x1d then .JEQ_REG
  else if opc = 0x25 then .JGT_IMM
  else if opc = 0x2d then .JGT_REG
  else if opc = 0x35 then .JGE_IMM
  else if opc = 0x3d then .JGE_REG
  else if opc = 0xa5 then .JLT_IMM
  else if opc = 0xad then .JLT_REG
  else if opc = 0xb5 then .JLE_IMM
  else if opc = 0xbd then .JLE_REG
  else if opc = 0x45 then .JSET_IMM
  else if opc = 0x4d then .JSET_REG
  else if opc = 0x55 then .JNE_IMM
  else if opc = 0x5d then .JNE_REG
  else if opc = 0x65 then .JSGT_IMM
  else if opc = 0x6d then .JSGT_REG
  else if opc = 0x75 then .JSGE_IMM
  else if opc = 0x7d then .JSGE_REG
  else if opc = 0xc5 then .JSLT_IMM
  else if opc = 0xcd then .JSLT_REG
  else if opc = 0xd5 then .JSLE_IMM
  else if opc = 0xdd then .JSLE_REG
  else if opc = 0x8d then .CALL_REG
  else if opc = 0x85 then .CALL_IMM
  else if opc = 0x95 ∧ v.static_syscalls = true then .SYSCALL
  else if opc = 0x9d ∨ opc = 0x95 then .RETURN_EXIT
  else .UNSUPPORTED

/-- The dispatch of `Interpreter::step`: execute the selected arm.  The
formulas transcribe the Rust expressions arm by arm (casts, wrap-around and
division checks included). -/
def dispatch (s : Machine) (insn : Insn) (next_pc : Nat) : Option StepEnd :=
  match decodeArm s.version insn.opc with
  | .LD_DW_IMM => lddw_arm s insn next_pc
  | .LD_B_REG => load_arm s insn 1 next_pc
  | .LD_H_REG => load_arm s insn 2 next_pc
  | .LD_W_REG => load_arm s insn 4 next_pc
  | .LD_DW_REG => load_arm s insn 8 next_pc
  | .ST_B_IMM => store_imm_arm s insn 1 next_pc
  | .ST_H_IMM => store_imm_arm s insn 2 next_pc
  | .ST_W_IMM => store_imm_arm s insn 4 next_pc
  | .ST_DW_IMM => store_imm_arm s insn 8 next_pc
  | .ST_B_REG => store_reg_arm s insn 1 next_pc
  | .ST_H_REG => store_reg_arm s insn 2 next_pc
  | .ST_W_REG => store_reg_arm s insn 4 next_pc
  | .ST_DW_REG => store_reg_arm s insn 8 next_pc
  | .ADD32_IMM => alu1_arm s insn.dst next_pc (fun d => .val (sign_extension s.version (wrapI 32 (toI32 d + wrapI 32 insn.imm))))
  | .ADD32_REG => alu2_arm s insn.dst insn.src next_pc (fun d r => .val (sign_extension s.version (wrapI 32 (toI32 d + toI32 r))))
  | .SUB32_IMM =>
    if s.version.swap_sub_reg_imm_operands = true then
      alu1_arm s insn.dst next_pc (fun d => .val (sign_extension s.version (wrapI 32 (wrapI 32 insn.imm - toI32 d))))
    else
      alu1_arm s insn.dst next_pc (fun d => .val (sign_extension s.version (wrapI 32 (toI32 d - wrapI 32 insn.imm))))
  | .SUB32_REG => alu2_arm s insn.dst insn.src next_pc (fun d r => .val (sign_extension s.version (wrapI 32 (toI32 d - toI32 r))))
  | .MUL32_IMM => alu1_arm s insn.dst next_pc (fun d => .val (intToU 64 (wrapI 32 (toI32 d * wrapI 32 insn.imm))))
  | .MUL32_REG => alu2_arm s insn.dst insn.src next_pc (fun d r => .val (intToU 64 (wrapI 32 (toI32 d * toI32 r))))
  | .LD_1B_REG => load_arm s insn 1 next_pc
  | .DIV32_IMM => alu1_arm s insn.dst next_pc (fun d =>
      if intToU 32 insn.imm = 0 then .crash else .val (toU32 d / intToU 32 insn.imm))
  | .DIV32_REG => div_reg_arm s insn.dst insn.src next_pc
      (fun r => if toU32 r = 0 then some .DivideByZero else none)
      (fun _ _ => none)
      (fun d r => toU32 d / toU32 r)
  | .LD_2B_REG => load_arm s insn 2 next_pc
  | .OR32_IMM => alu1_arm s insn.dst next_pc (fun d => .val (toU32 d ||| intToU 32 insn.imm))
  | .OR32_REG => alu2_arm s insn.dst insn.src next_pc (fun d r => .val (toU32 d ||| toU32 r))
  | .AND32_IMM => alu1_arm s insn.dst next_pc (fun d => .val (toU32 d &&& intToU 32 insn.imm))
  | .AND32_REG => alu2_arm s insn.dst insn.src next_pc (fun d r => .val (toU32 d &&& toU32 r))
  | .LSH32_IMM => alu1_arm s insn.dst next_pc (fun d => .val (toU32 d * 2 ^ (intToU 32 insn.imm % 32) % 4294967296))
  | .LSH32_REG => alu2_arm s insn.dst insn.src next_pc (fun d r => .val (toU32 d * 2 ^ (toU32 r % 32) % 4294967296))
  | .RSH32_IMM => alu1_arm s insn.dst next_pc (fun d => .val (toU32 d / 2 ^ (intToU 32 insn.imm % 32)))
  | .RSH32_REG => alu2_arm s insn.dst insn.src next_pc (fun d r => .val (toU32 d / 2 ^ (toU32 r % 32)))
  | .NEG32 => alu1_arm s insn.dst next_pc (fun d => .val (intToU 64 (wrapI 32 (-(toI32 d))) &&& 4294967295))
  | .LD_4B_REG => load_arm s insn 4 next_pc
  | .MOD32_IMM => alu1_arm s insn.dst next_pc (fun d =>
      if intToU 32 insn.imm = 0 then .crash else .val (toU32 d % intToU 32 insn.imm))
  | .MOD32_REG => div_reg_arm s insn.dst insn.src next_pc
      (fun r => if toU32 r = 0 then some .DivideByZero else none)
      (fun _ _ => none)
      (fun d r => toU32 d % toU32 r)
  | .LD_8B_REG => load_arm s insn 8 next_pc
  | .XOR32_IMM => alu1_arm s insn.dst next_pc (fun d => .val (toU32 d ^^^ intToU 32 insn.imm))
  | .XOR32_REG => alu2_arm s insn.dst insn.src next_pc (fun d r => .val (toU32 d ^^^ toU32 r))
  | .MOV32_IMM => mov_imm_arm s insn.dst next_pc (intToU 32 insn.imm)
  | .MOV32_REG => mov_reg_arm s insn next_pc (fun sv =>
      if s.version.explicit_sign_extension_of_results = true then intToU 64 (toI32 sv) else toU32 sv)
  | .ARSH32_IMM => alu1_arm s insn.dst next_pc (fun d => .val (intToU 32 (Int.fdiv (toI32 d) (2 ^ (intToU 32 insn.imm % 32)))))
  | .ARSH32_REG => alu2_arm s insn.dst insn.src next_pc (fun d r => .val (intToU 32 (Int.fdiv (toI32 d) (2 ^ (toU32 r % 32)))))
  | .LE => endian_arm s insn.dst next_pc
      (if insn.imm = 16 then some (fun d => d % 65536)
       else if insn.imm = 32 then some (fun d => d % 4294967296)
       else if insn.imm = 64 then some (fun d => d)
       else none)
  | .BE => endian_arm s insn.dst next_pc
      (if insn.imm = 16 then some (fun d => bswap 2 (d % 65536))
       else if insn.imm = 32 then some (fun d => bswap 4 (d % 4294967296))
       else if insn.imm = 64 then some (fun d => bswap 8 d)
       else none)
  | .ADD64_IMM => alu1_arm s insn.dst next_pc (fun d => .val (wrap64 (d + intToU 64 insn.imm)))
  | .ADD64_REG => alu2_arm s insn.dst insn.src next_pc (fun d r => .val (wrap64 (d + r)))
  | .SUB64_IMM =>
    if s.version.swap_sub_reg_imm_operands = true then
      alu1_arm s insn.dst next_pc (fun d => .val (wsub64 (intToU 64 insn.imm) d))
    else
      alu1_arm s insn.dst next_pc (fun d => .val (wsub64 d (intToU 64 insn.imm)))
  | .SUB64_REG => alu2_arm s insn.dst insn.src next_pc (fun d r => .val (wsub64 d r))
  | .MUL64_IMM => alu1_arm s insn.dst next_pc (fun d => .val (wrap64 (d * intToU 64 insn.imm)))
  | .ST_1B_IMM => store_imm_arm s insn 1 next_pc
  | .MUL64_REG => alu2_arm s insn.dst insn.src next_pc (fun d r => .val (wrap64 (d * r)))
  | .ST_1B_REG => store_reg_arm s insn 1 next_pc
  | .DIV64_IMM => alu1_arm s insn.dst next_pc (fun d =>
      if intToU 64 insn.imm = 0 then .crash else .val (d / intToU 64 insn.imm))
  | .ST_2B_IMM => store_imm_arm s insn 2 next_pc
  | .DIV64_REG => div_reg_arm s insn.dst insn.src next_pc
      (fun r => if r = 0 then some .DivideByZero else none)
      (fun _ _ => none)
      (fun d r => d / r)
  | .ST_2B_REG => store_reg_arm s insn 2 next_pc
  | .OR64_IMM => alu1_arm s insn.dst next_pc (fun d => .val (d ||| intToU 64 insn.imm))
  | .OR64_REG => alu2_arm s insn.dst insn.src next_pc (fun d r => .val (d ||| r))
  | .AND64_IMM => alu1_arm s insn.dst next_pc (fun d => .val (d &&& intToU 64 insn.imm))
  | .AND64_REG => alu2_arm s insn.dst insn.src next_pc (fun d r => .val (d &&& r))
  | .LSH64_IMM => alu1_arm s insn.dst next_pc (fun d => .val (wrap64 (d * 2 ^ (intToU 32 insn.imm % 64))))
  | .LSH64_REG => alu2_arm s insn.dst insn.src next_pc (fun d r => .val (wrap64 (d * 2 ^ (toU32 r % 64))))
  | .RSH64_IMM => alu1_arm s insn.dst next_pc (fun d => .val (d / 2 ^ (intToU 32 insn.imm % 64)))
  | .RSH64_REG => alu2_arm s insn.dst insn.src next_pc (fun d r => .val (d / 2 ^ (toU32 r % 64)))
  | .ST_4B_IMM => store_imm_arm s insn 4 next_pc
  | .NEG64 => alu1_arm s insn.dst next_pc (fun d => .val (intToU 64 (wrapI 64 (-(toI64 d)))))
  | .ST_4B_REG => store_reg_arm s insn 4 next_pc
  | .MOD64_IMM => alu1_arm s insn.dst next_pc (fun d =>
      if intToU 64 insn.imm = 0 then .crash else .val (d % intToU 64 insn.imm))
  | .ST_8B_IMM => store_imm_arm s insn 8 next_pc
  | .MOD64_REG => div_reg_arm s insn.dst insn.src next_pc
      (fun r => if r = 0 then some .DivideByZero else none)
      (fun _ _ => none)
      (fun d r => d % r)
  | .ST_8B_REG => store_reg_arm s insn 8 next_pc
  | .XOR64_IMM => alu1_arm s insn.dst next_pc (fun d => .val (d ^^^ intToU 64 insn.imm))
  | .XOR64_REG => alu2_arm s insn.dst insn.src next_pc (fun d r => .val (d ^^^ r))
  | .MOV64_IMM => mov_imm_arm s insn.dst next_pc (intToU 64 insn.imm)
  | .MOV64_REG => mov_reg_arm s insn next_pc (fun sv => sv)
  | .ARSH64_IMM => alu1_arm s insn.dst next_pc (fun d => .val (intToU 64 (Int.fdiv (toI64 d) (2 ^ (intToU 32 insn.imm % 64)))))
  | .ARSH64_REG => alu2_arm s insn.dst insn.src next_pc (fun d r => .val (intToU 64 (Int.fdiv (toI64 d) (2 ^ (toU32 r % 64)))))
  | .HOR64_IMM => alu1_arm s insn.dst next_pc (fun d => .val (d ||| wrap64 (intToU 64 insn.imm * 4294967296)))
  | .LMUL32_IMM => alu1_arm s insn.dst next_pc (fun d => .val (toU32 d * intToU 32 insn.imm % 4294967296))
  | .LMUL32_REG => alu2_arm s insn.dst insn.src next_pc (fun d r => .val (toU32 d * toU32 r % 4294967296))
  | .LMUL64_IMM => alu1_arm s insn.dst next_pc (fun d => .val (wrap64 (d * intToU 64 insn.imm)))
  | .LMUL64_REG => alu2_arm s insn.dst insn.src next_pc (fun d r => .val (wrap64 (d * r)))
  | .UHMUL64_IMM => alu1_arm s insn.dst next_pc (fun d =>
      .val (d * intToU 32 insn.imm % 340282366920938463463374607431768211456 / 18446744073709551616))
  | .UHMUL64_REG => alu2_arm s insn.dst insn.src next_pc (fun d r =>
      .val (d * r % 340282366920938463463374607431768211456 / 18446744073709551616))
  | .SHMUL64_IMM => alu1_arm s insn.dst next_pc (fun d =>
      .val (intToU 64 (Int.fdiv (wrapI 128 (toI64 d * insn.imm)) 18446744073709551616)))
  | .SHMUL64_REG => alu2_arm s insn.dst insn.src next_pc (fun d r =>
      .val (intToU 64 (Int.fdiv (wrapI 128 (toI64 d * toI64 r)) 18446744073709551616)))
  | .UDIV32_IMM => alu1_arm s insn.dst next_pc (fun d =>
      if intToU 32 insn.imm = 0 then .crash else .val (toU32 d / intToU 32 insn.imm))
  | .UDIV32_REG => div_reg_arm s insn.dst insn.src next_pc
      (fun r => if toU32 r = 0 then some .DivideByZero else none)
      (fun _ _ => none)
      (fun d r => toU32 d / toU32 r)
  | .UDIV64_IMM => alu1_arm s insn.dst next_pc (fun d =>
      if intToU 32 insn.imm = 0 then .crash else .val (d / intToU 32 insn.imm))
  | .UDIV64_REG => div_reg_arm s insn.dst insn.src next_pc
      (fun r => if r = 0 then some .DivideByZero else none)
      (fun _ _ => none)
      (fun d r => d / r)
  | .UREM32_IMM => alu1_arm s insn.dst next_pc (fun d =>
      if intToU 32 insn.imm = 0 then .crash else .val (toU32 d % intToU 32 insn.imm))
  | .UREM32_REG => div_reg_arm s insn.dst insn.src next_pc
      (fun r => if toU32 r = 0 then some .DivideByZero else none)
      (fun _ _ => none)
      (fun d r => toU32 d % toU32 r)
  | .UREM64_IMM => alu1_arm s insn.dst next_pc (fun d =>
      if intToU 32 insn.imm = 0 then .crash else .val (d % intToU 32 insn.imm))
  | .UREM64_REG => div_reg_arm s insn.dst insn.src next_pc
      (fun r => if r = 0 then some .DivideByZero else none)
      (fun _ _ => none)
      (fun d r => d % r)
  | .SDIV32_IMM => alu1_arm s insn.dst next_pc (fun d =>
      if toI32 d = -2147483648 ∧ wrapI 32 insn.imm = -1 then .fault .DivideOverflow
      else if wrapI 32 insn.imm = 0 then .crash
      else .val (intToU 32 (Int.tdiv (toI32 d) (wrapI 32 insn.imm))))
  | .SDIV32_REG => div_reg_arm s insn.dst insn.src next_pc
      (fun r => if toI32 r = 0 then some .DivideByZero else none)
      (fun d r => if toI32 d = -2147483648 ∧ toI32 r = -1 then some .DivideOverflow else none)
      (fun d r => intToU 32 (Int.tdiv (toI32 d) (toI32 r)))
  | .SDIV64_IMM => alu1_arm s insn.dst next_pc (fun d =>
      if toI64 d = -9223372036854775808 ∧ insn.imm = -1 then .fault .DivideOverflow
      else if insn.imm = 0 then .crash
      else .val (intToU 64 (Int.tdiv (toI64 d) insn.imm)))
  | .SDIV64_REG => div_reg_arm s insn.dst insn.src next_pc
      (fun r => if toI64 r = 0 then some .DivideByZero else none)
      (fun d r => if toI64 d = -9223372036854775808 ∧ toI64 r = -1 then some .DivideOverflow else none)
      (fun d r => intToU 64 (Int.tdiv (toI64 d) (toI64 r)))
  | .SREM32_IMM => alu1_arm s insn.dst next_pc (fun d =>
      if toI32 d = -2147483648 ∧ wrapI 32 insn.imm = -1 then .fault .DivideOverflow
      else if wrapI 32 insn.imm = 0 then .crash
      else .val (intToU 32 (Int.tmod (toI32 d) (wrapI 32 insn.imm))))
  | .SREM32_REG => div_reg_arm s insn.dst insn.src next_pc
      (fun r => if toI32 r = 0 then some .DivideByZero else none)
      (fun d r => if toI32 d = -2147483648 ∧ toI32 r = -1 then some .DivideOverflow else none)
      (fun d r => intToU 32 (Int.tmod (toI32 d) (toI32 r)))
  | .SREM64_IMM => alu1_arm s insn.dst next_pc (fun d =>
      if toI64 d = -9223372036854775808 ∧ insn.imm = -1 then .fault .DivideOverflow
      else if insn.imm = 0 then .crash
      else .val (intToU 64 (Int.tmod (toI64 d) insn.imm)))
  | .SREM64_REG => div_reg_arm s insn.dst insn.src next_pc
      (fun r => if toI64 r = 0 then some .DivideByZero else none)
      (fun d r => if toI64 d = -9223372036854775808 ∧ toI64 r = -1 then some .DivideOverflow else none)
      (fun d r => intToU 64 (Int.tmod (toI64 d) (toI64 r)))
  | .JA => ja_arm s insn next_pc
  | .JEQ_IMM => cond_jmp_imm s insn next_pc (fun d => decide (d = intToU 64 insn.imm))
  | .JEQ_REG => cond_jmp_reg s insn next_pc (fun d r => decide (d = r))
  | .JGT_IMM => cond_jmp_imm s insn next_pc (fun d => decide (d > intToU 64 insn.imm))
  | .JGT_REG => cond_jmp_reg s insn next_pc (fun d r => decide (d > r))
  | .JGE_IMM => cond_jmp_imm s insn next_pc (fun d => decide (d ≥ intToU 64 insn.imm))
  | .JGE_REG => cond_jmp_reg s insn next_pc (fun d r => decide (d ≥ r))
  | .JLT_IMM => cond_jmp_imm s insn next_pc (fun d => decide (d < intToU 64 insn.imm))
  | .JLT_REG => cond_jmp_reg s insn next_pc (fun d r => decide (d < r))
  | .JLE_IMM => cond_jmp_imm s insn next_pc (fun d => decide (d ≤ intToU 64 insn.imm))
  | .JLE_REG => cond_jmp_reg s insn next_pc (fun d r => decide (d ≤ r))
  | .JSET_IMM => cond_jmp_imm s insn next_pc (fun d => decide (d &&& intToU 64 insn.imm ≠ 0))
  | .JSET_REG => cond_jmp_reg s insn next_pc (fun d r => decide (d &&& r ≠ 0))
  | .JNE_IMM => cond_jmp_imm s insn next_pc (fun d => decide (d ≠ intToU 64 insn.imm))
  | .JNE_REG => cond_jmp_reg s insn next_pc (fun d r => decide (d ≠ r))
  | .JSGT_IMM => cond_jmp_imm s insn next_pc (fun d => decide (toI64 d > insn.imm))
  | .JSGT_REG => cond_jmp_reg s insn next_pc (fun d r => decide (toI64 d > toI64 r))
  | .JSGE_IMM => cond_jmp_imm s insn next_pc (fun d => decide (toI64 d ≥ insn.imm))
  | .JSGE_REG => cond_jmp_reg s insn next_pc (fun d r => decide (toI64 d ≥ toI64 r))
  | .JSLT_IMM => cond_jmp_imm s insn next_pc (fun d => decide (toI64 d < insn.imm))
  | .JSLT_REG => cond_jmp_reg s insn next_pc (fun d r => decide (toI64 d < toI64 r))
  | .JSLE_IMM => cond_jmp_imm s insn next_pc (fun d => decide (toI64 d ≤ insn.imm))
  | .JSLE_REG => cond_jmp_reg s insn next_pc (fun d r => decide (toI64 d ≤ toI64 r))
  | .CALL_REG => call_reg_arm s insn next_pc
  | .CALL_IMM => call_imm_arm s insn next_pc
  | .SYSCALL => syscall_arm s insn next_pc
  | .RETURN_EXIT => exit_arm s insn next_pc
  | .UNSUPPORTED => some (.faulted s .UnsupportedInstruction)

/-- The due-count increment performed at the start of each step. -/
def preState (s : Machine) : Machine := { s with due_insn_count := wrap64 (s.due_insn_count + 1) }

/-- The optional register-file trace handed to the context object. -/
def traceState (s : Machine) : Machine :=
  if s.config.enable_instruction_tracing = true then { s with trace_log := s.trace_log ++ [List.ofFn s.reg] } else s

/-- One whole step of `Interpreter::step`, up to (but not including) the
final effect of its return path: meter check, due increment, fetch bound
check, decode, optional tracing, dispatch. -/
def stepRun (s0 : Machine) : Option StepEnd :=
  if s0.config.enable_instruction_meter = true ∧ s0.due_insn_count ≥ s0.previous_instruction_meter then
    some (.faulted s0 .ExceededMaxInstructions)
  else
    let s1 := preState s0
    if wrap64 (s1.reg 11 * 8) ≥ s1.program.length then some (.faulted s1 .ExecutionOverrun)
    else
      match get_insn_unchecked s1.program (s1.reg 11) with
      | none => none
      | some insn => dispatch (traceState s1) insn (wrap64 (s1.reg 11 + 1))

/-- `Interpreter::step`: run one step and apply the ending's effect — write
back `reg[11] := next_pc` and return `true` on continuation; commit the
`throw_error!` assignments and return `false` on a fault; write `Ok(reg[0])`
on the terminating exit; plain `false` after a failed syscall.  `none` is a
Rust abort. -/
def step (s : Machine) : Option (Bool × Machine) :=
  match stepRun s with
  | none => none
  | some (.cont t npc) => some (true, { t with reg := fset t.reg 11 npc })
  | some (.faulted t e) => some (false, { t with vm_registers := fset t.vm_registers 11 (t.reg 11), program_result := .error e })
  | some (.finished t v) => some (false, { t with program_result := .ok v })
  | some (.sysErr t) => some (false, t)

/-- A baseline SBPFv0-style dialect (all capability flags off) used by the
concrete witnesses; `calculate_call_imm_target_pc` resolves to the low
32 bits of the immediate. -/
def v0 : VersionFlags :=
  { disable_lddw := false, move_memory_instruction_classes := false, enable_pqr := false,
    disable_neg := false, disable_le := false, swap_sub_reg_imm_operands := false,
    explicit_sign_extension_of_results := false, callx_uses_src_reg := false,
    static_syscalls := false, dynamic_stack_frames := false,
    calc_call_imm_target_pc := fun _ imm => intToU 32 imm }

/-- An SBPFv3-style dialect (all capability flags on) for the witnesses. -/
def v3 : VersionFlags :=
  { disable_lddw := true, move_memory_instruction_classes := true, enable_pqr := true,
    disable_neg := true, disable_le := true, swap_sub_reg_imm_operands := true,
    explicit_sign_extension_of_results := true, callx_uses_src_reg := true,
    static_syscalls := true, dynamic_stack_frames := true,
    calc_call_imm_target_pc := fun _ imm => intToU 32 imm }

/-- Default configuration of the witnesses (meter and tracing off). -/
def cfg0 : Config :=
  { max_call_depth := 64, stack_frame_size := 4096, enable_stack_frame_gaps := true,
    enable_instruction_meter := false, enable_instruction_tracing := false }

/-- An empty memory mapping. -/
def mem0 : Mem := { read_byte := fun _ => none, writable_byte := fun _ => false }

/-- The all-zero call frame the VM constructor fills its frame vector with. -/
def frame0 : CallFrame := { caller_saved_registers := fun _ => 0, frame_pointer := 0, target_pc := 0 }

/-- Baseline machine used by the concrete witnesses: a freshly constructed
VM under `v0`/`cfg0` with an empty program and no memory. -/
def base : Machine :=
  { config := cfg0, version := v0, function_registry := fun _ => none,
    loader_registry := fun _ => none, program_vm_addr := MM_PROGRAM_TEXT_START,
    program := [], reg := fun _ => 0, vm_registers := fun _ => 0, call_depth := 0,
    call_frames := List.replicate 64 frame0,
    previous_instruction_meter := 0, due_insn_count := 0, program_result := .ok 0,
    mem := mem0, taint_state := fun _ => .Clean, instruction_record := [],
    propagation_log := [], jump_log := [], trace_log := [] }

@[simp] lemma preState_config (s : Machine) : (preState s).config = s.config := rfl

@[simp] lemma preState_version (s : Machine) : (preState s).version = s.version := rfl

@[simp] lemma preState_reg (s : Machine) : (preState s).reg = s.reg := rfl

@[simp] lemma preState_program (s : Machine) : (preState s).program = s.program := rfl

@[simp] lemma preState_call_depth (s : Machine) : (preState s).call_depth = s.call_depth := rfl

@[simp] lemma preState_call_frames (s : Machine) : (preState s).call_frames = s.call_frames := rfl

@[simp] lemma preState_taint_state (s : Machine) : (preState s).taint_state = s.taint_state := rfl

@[simp] lemma preState_instruction_record (s : Machine) : (preState s).instruction_record = s.instruction_record := rfl

@[simp] lemma preState_jump_log (s : Machine) : (preState s).jump_log = s.jump_log := rfl

@[simp] lemma preState_program_result (s : Machine) : (preState s).program_result = s.program_result := rfl

@[simp] lemma preState_vm_registers (s : Machine) : (preState s).vm_registers = s.vm_registers := rfl

@[simp] lemma preState_mem (s : Machine) : (preState s).mem = s.mem := rfl

@[simp] lemma preState_previous (s : Machine) : (preState s).previous_instruction_meter = s.previous_instruction_meter := rfl

@[simp] lemma preState_due (s : Machine) : (preState s).due_insn_count = wrap64 (s.due_insn_count + 1) := rfl

@[simp] lemma preState_function_registry (s : Machine) : (preState s).function_registry = s.function_registry := rfl

@[simp] lemma preState_loader_registry (s : Machine) : (preState s).loader_registry = s.loader_registry := rfl

@[simp] lemma preState_program_vm_addr (s : Machine) : (preState s).program_vm_addr = s.program_vm_addr := rfl

@[simp] lemma traceState_config (s : Machine) : (traceState s).config = s.config := by
  unfold traceState; split <;> rfl

@[simp] lemma traceState_version (s : Machine) : (traceState s).version = s.version := by
  unfold traceState; split <;> rfl

@[simp] lemma traceState_reg (s : Machine) : (traceState s).reg = s.reg := by
  unfold traceState; split <;> rfl

@[simp] lemma traceState_program (s : Machine) : (traceState s).program = s.program := by
  unfold traceState; split <;> rfl

@[simp] lemma traceState_call_depth (s : Machine) : (traceState s).call_depth = s.call_depth := by
  unfold traceState; split <;> rfl

@[simp] lemma traceState_call_frames (s : Machine) : (traceState s).call_frames = s.call_frames := by
  unfold traceState; split <;> rfl

@[simp] lemma traceState_taint_state (s : Machine) : (traceState s).taint_state = s.taint_state := by
  unfold traceState; split <;> rfl

@[simp] lemma traceState_instruction_record (s : Machine) : (traceState s).instruction_record = s.instruction_record := by
  unfold traceState; split <;> rfl

@[simp] lemma traceState_jump_log (s : Machine) : (traceState s).jump_log = s.jump_log := by
  unfold traceState; split <;> rfl

@[simp] lemma traceState_program_result (s : Machine) : (traceState s).program_result = s.program_result := by
  unfold traceState; split <;> rfl

@[simp] lemma traceState_vm_registers (s : Machine) : (traceState s).vm_registers = s.vm_registers := by
  unfold traceState; split <;> rfl

@[simp] lemma traceState_mem (s : Machine) : (traceState s).mem = s.mem := by
  unfold traceState; split <;> rfl

@[simp] lemma traceState_previous (s : Machine) : (traceState s).previous_instruction_meter = s.previous_instruction_meter := by
  unfold traceState; split <;> rfl

@[simp] lemma traceState_due (s : Machine) : (traceState s).due_insn_count = s.due_insn_count := by
  unfold traceState; split <;> rfl

@[simp] lemma traceState_function_registry (s : Machine) : (traceState s).function_registry = s.function_registry := by
  unfold traceState; split <;> rfl

@[simp] lemma traceState_loader_registry (s : Machine) : (traceState s).loader_registry = s.loader_registry := by
  unfold traceState; split <;> rfl

@[simp] lemma traceState_program_vm_addr (s : Machine) : (traceState s).program_vm_addr = s.program_vm_addr := by
  unfold traceState; split <;> rfl

/-- Unified address at byte `i` of `base`, the pointwise view of
`address_mapping`. -/
def uaddr (b i : Nat) : UnifiedAddress :=
  if b < 12 then UnifiedAddress.Register b i else UnifiedAddress.Memory (wrap64 (b + i))

lemma address_mapping_getD (b w i : Nat) (d : UnifiedAddress) (h : i < w) :
    (address_mapping b w).getD i d = uaddr b i := by
  simp [address_mapping, uaddr, List.getD, List.get?_eq_getElem?, List.getElem?_map,
    List.getElem?_range h]

lemma foldl_congr_mem {α β : Type} :
    ∀ (l : List α) (f g : β → α → β) (b : β),
      (∀ x ∈ l, ∀ acc, f acc x = g acc x) → l.foldl f b = l.foldl g b := by
  intro l f g
  induction l with
  | nil => intro b _; rfl
  | cons a l ih =>
    intro b h
    rw [List.foldl, List.foldl, h a (by simp)]
    exact ih _ (fun x hx acc => h x (by simp [hx]) acc)

lemma foldl_machine_proj {β : Type} (g : Machine → β) (F : Machine → Nat → Machine)
    (h : ∀ st i, g (F st i) = g st) : ∀ (l : List Nat) (s : Machine), g (l.foldl F s) = g s := by
  intro l
  induction l with
  | nil => intro s; rfl
  | cons a l ih => intro s; rw [List.foldl, ih, h]

@[simp] lemma fset_apply_same (r : Fin 12 → Nat) (i : Fin 12) (v : Nat) : fset r i v i = v := by
  simp [fset]

@[simp] lemma fset_apply_ne (r : Fin 12 → Nat) (i j : Fin 12) (v : Nat) (h : j ≠ i) : fset r i v j = r j := by
  simp [fset, h]

@[simp] lemma throwSt_call_depth (s : Machine) (e : EbpfError) : (throwSt s e).call_depth = s.call_depth := rfl

@[simp] lemma throwSt_reg (s : Machine) (e : EbpfError) : (throwSt s e).reg = s.reg := rfl

@[simp] lemma throwSt_config (s : Machine) (e : EbpfError) : (throwSt s e).config = s.config := rfl

@[simp] lemma throwSt_program_result (s : Machine) (e : EbpfError) : (throwSt s e).program_result = .error e := rfl

@[simp] lemma trace_jump_reg (s : Machine) (a b : Nat) : (trace_jump s a b).reg = s.reg := rfl

@[simp] lemma trace_jump_call_depth (s : Machine) (a b : Nat) : (trace_jump s a b).call_depth = s.call_depth := rfl

@[simp] lemma trace_jump_taint_state (s : Machine) (a b : Nat) : (trace_jump s a b).taint_state = s.taint_state := rfl

@[simp] lemma trace_jump_instruction_record (s : Machine) (a b : Nat) : (trace_jump s a b).instruction_record = s.instruction_record := rfl

@[simp] lemma trace_jump_jump_log (s : Machine) (a b : Nat) : (trace_jump s a b).jump_log = s.jump_log ++ [(a, b)] := rfl

@[simp] lemma trace_jump_program_result (s : Machine) (a b : Nat) : (trace_jump s a b).program_result = s.program_result := rfl

@[simp] lemma clear_taint_vector_reg (s : Machine) (l : List UnifiedAddress) : (clear_taint_vector s l).reg = s.reg := rfl

@[simp] lemma clear_taint_vector_call_depth (s : Machine) (l : List UnifiedAddress) : (clear_taint_vector s l).call_depth = s.call_depth := rfl

@[simp] lemma clear_taint_vector_jump_log (s : Machine) (l : List UnifiedAddress) : (clear_taint_vector s l).jump_log = s.jump_log := rfl

@[simp] lemma clear_taint_vector_instruction_record (s : Machine) (l : List UnifiedAddress) : (clear_taint_vector s l).instruction_record = s.instruction_record := rfl

@[simp] lemma clear_taint_vector_program_result (s : Machine) (l : List UnifiedAddress) : (clear_taint_vector s l).program_result = s.program_result := rfl

@[simp] lemma dispatch_syscall_call_depth (s : Machine) (f : BuiltinFn) : (dispatch_syscall s f).call_depth = s.call_depth := rfl

@[simp] lemma dispatch_syscall_reg (s : Machine) (f : BuiltinFn) : (dispatch_syscall s f).reg = s.reg := rfl

@[simp] lemma dispatch_syscall_jump_log (s : Machine) (f : BuiltinFn) : (dispatch_syscall s f).jump_log = s.jump_log := rfl

@[simp] lemma taint_propagate_array_call_depth (s : Machine) (p o a b l : Nat) (vs : List Nat) :
    (taint_propagate_array s p o a b l vs).call_depth = s.call_depth := by
  unfold taint_propagate_array
  dsimp only
  apply foldl_machine_proj
  intro st i
  rfl

@[simp] lemma taint_propagate_array_reg (s : Machine) (p o a b l : Nat) (vs : List Nat) :
    (taint_propagate_array s p o a b l vs).reg = s.reg := by
  unfold taint_propagate_array
  dsimp only
  apply foldl_machine_proj
  intro st i
  rfl

@[simp] lemma taint_propagate_array_jump_log (s : Machine) (p o a b l : Nat) (vs : List Nat) :
    (taint_propagate_array s p o a b l vs).jump_log = s.jump_log := by
  unfold taint_propagate_array
  dsimp only
  apply foldl_machine_proj
  intro st i
  rfl

@[simp] lemma taint_propagate_array_instruction_record (s : Machine) (p o a b l : Nat) (vs : List Nat) :
    (taint_propagate_array s p o a b l vs).instruction_record = s.instruction_record := by
  unfold taint_propagate_array
  dsimp only
  apply foldl_machine_proj
  intro st i
  rfl

@[simp] lemma taint_propagate_array_program_result (s : Machine) (p o a b l : Nat) (vs : List Nat) :
    (taint_propagate_array s p o a b l vs).program_result = s.program_result := by
  unfold taint_propagate_array
  dsimp only
  apply foldl_machine_proj
  intro st i
  rfl

@[simp] lemma taint_reg_compare_taint_state (s : Machine) (opc src : Nat) (sv : List Nat) (dst : Nat) (dv : List Nat) (n : Nat) :
    (taint_reg_compare s opc src sv dst dv n).taint_state = s.taint_state := by
  unfold taint_reg_compare
  apply foldl_machine_proj
  intro st i
  dsimp only
  split <;> rfl

@[simp] lemma taint_reg_compare_reg (s : Machine) (opc src : Nat) (sv : List Nat) (dst : Nat) (dv : List Nat) (n : Nat) :
    (taint_reg_compare s opc src sv dst dv n).reg = s.reg := by
  unfold taint_reg_compare
  apply foldl_machine_proj
  intro st i
  dsimp only
  split <;> rfl

@[simp] lemma taint_reg_compare_call_depth (s : Machine) (opc src : Nat) (sv : List Nat) (dst : Nat) (dv : List Nat) (n : Nat) :
    (taint_reg_compare s opc src sv dst dv n).call_depth = s.call_depth := by
  unfold taint_reg_compare
  apply foldl_machine_proj
  intro st i
  dsimp only
  split <;> rfl

@[simp] lemma taint_reg_compare_jump_log (s : Machine) (opc src : Nat) (sv : List Nat) (dst : Nat) (dv : List Nat) (n : Nat) :
    (taint_reg_compare s opc src sv dst dv n).jump_log = s.jump_log := by
  unfold taint_reg_compare
  apply foldl_machine_proj
  intro st i
  dsimp only
  split <;> rfl

@[simp] lemma taint_imm_compare_taint_state (s : Machine) (opc : Nat) (iv : List Nat) (dst : Nat) (dv : List Nat) (n : Nat) :
    (taint_imm_compare s opc iv dst dv n).taint_state = s.taint_state := by
  unfold taint_imm_compare
  apply foldl_machine_proj
  intro st i
  dsimp only
  split <;> rfl

@[simp] lemma taint_imm_compare_reg (s : Machine) (opc : Nat) (iv : List Nat) (dst : Nat) (dv : List Nat) (n : Nat) :
    (taint_imm_compare s opc iv dst dv n).reg = s.reg := by
  unfold taint_imm_compare
  apply foldl_machine_proj
  intro st i
  dsimp only
  split <;> rfl

@[simp] lemma taint_imm_compare_call_depth (s : Machine) (opc : Nat) (iv : List Nat) (dst : Nat) (dv : List Nat) (n : Nat) :
    (taint_imm_compare s opc iv dst dv n).call_depth = s.call_depth := by
  unfold taint_imm_compare
  apply foldl_machine_proj
  intro st i
  dsimp only
  split <;> rfl

@[simp] lemma taint_imm_compare_jump_log (s : Machine) (opc : Nat) (iv : List Nat) (dst : Nat) (dv : List Nat) (n : Nat) :
    (taint_imm_compare s opc iv dst dv n).jump_log = s.jump_log := by
  unfold taint_imm_compare
  apply foldl_machine_proj
  intro st i
  dsimp only
  split <;> rfl

/-- Invariant of the non-call arms: the call depth is untouched and a fault
leaves `reg[11]` at its value on entry to the step. -/
def tame (s : Machine) (o : StepEnd) : Prop :=
  (stateOf o).call_depth = s.call_depth ∧ ∀ t e, o = .faulted t e → t.reg 11 = s.reg 11

lemma fset_at_ne (r : Fin 12 → Nat) (i j : Fin 12) (v : Nat) (h : j.val ≠ i.val) : fset r i v j = r j := by
  unfold fset
  rw [if_neg]
  intro hh
  exact h (congrArg Fin.val hh)

lemma alu1_arm_tame (s : Machine) (dst npc : Nat) (g : Nat → AluRes) (o : StepEnd)
    (h : alu1_arm s dst npc g = some o) : tame s o := by
  unfold alu1_arm at h
  try dsimp only at h
  repeat' split at h
  all_goals cases h <;> exact ⟨by simp [stateOf], fun t e hte => by cases hte <;> simp⟩

lemma alu2_arm_tame (s : Machine) (dst src npc : Nat) (g : Nat → Nat → AluRes) (o : StepEnd)
    (h : alu2_arm s dst src npc g = some o) : tame s o := by
  unfold alu2_arm at h
  try dsimp only at h
  repeat' split at h
  all_goals cases h <;> exact ⟨by simp [stateOf], fun t e hte => by cases hte <;> simp⟩

lemma div_reg_arm_tame (s : Machine) (dst src npc : Nat) (c1 : Nat → Option EbpfError)
    (c2 : Nat → Nat → Option EbpfError) (g : Nat → Nat → Nat) (o : StepEnd)
    (h : div_reg_arm s dst src npc c1 c2 g = some o) : tame s o := by
  unfold div_reg_arm at h
  try dsimp only at h
  repeat' split at h
  all_goals cases h <;> exact ⟨by simp [stateOf], fun t e hte => by cases hte <;> simp⟩

lemma endian_arm_tame (s : Machine) (dst npc : Nat) (conv : Option (Nat → Nat)) (o : StepEnd)
    (h : endian_arm s dst npc conv = some o) : tame s o := by
  unfold endian_arm at h
  split at h
  · cases h; exact ⟨rfl, fun t e hte => by cases hte <;> simp⟩
  · exact alu1_arm_tame _ _ _ _ _ h

lemma load_arm_tame (s : Machine) (insn : Insn) (w npc : Nat) (o : StepEnd)
    (h : load_arm s insn w npc = some o) : tame s o := by
  unfold load_arm at h
  try dsimp only at h
  repeat' split at h
  all_goals cases h <;> exact ⟨by simp [stateOf], fun t e hte => by cases hte <;> simp⟩

lemma store_imm_arm_tame (s : Machine) (insn : Insn) (w npc : Nat) (o : StepEnd)
    (h : store_imm_arm s insn w npc = some o) : tame s o := by
  unfold store_imm_arm at h
  try dsimp only at h
  repeat' split at h
  all_goals cases h <;> exact ⟨by simp [stateOf], fun t e hte => by cases hte <;> simp⟩

lemma store_reg_arm_tame (s : Machine) (insn : Insn) (w npc : Nat) (o : StepEnd)
    (h : store_reg_arm s insn w npc = some o) : tame s o := by
  unfold store_reg_arm at h
  try dsimp only at h
  repeat' split at h
  all_goals cases h <;> exact ⟨by simp [stateOf], fun t e hte => by cases hte <;> simp⟩

lemma mov_imm_arm_tame (s : Machine) (dst npc v : Nat) (o : StepEnd)
    (h : mov_imm_arm s dst npc v = some o) : tame s o := by
  unfold mov_imm_arm at h
  try dsimp only at h
  repeat' split at h
  all_goals cases h <;> exact ⟨by simp [stateOf], fun t e hte => by cases hte <;> simp⟩

lemma mov_reg_arm_tame (s : Machine) (insn : Insn) (npc : Nat) (conv : Nat → Nat) (o : StepEnd)
    (h : mov_reg_arm s insn npc conv = some o) : tame s o := by
  unfold mov_reg_arm at h
  try dsimp only at h
  repeat' split at h
  all_goals cases h <;> exact ⟨by simp [stateOf], fun t e hte => by cases hte <;> simp⟩

lemma lddw_arm_tame (s : Machine) (insn : Insn) (npc : Nat) (o : StepEnd)
    (h : lddw_arm s insn npc = some o) : tame s o := by
  unfold lddw_arm at h
  try dsimp only at h
  repeat' split at h
  all_goals cases h <;> exact ⟨by simp [stateOf], fun t e hte => by cases hte <;> simp⟩

lemma ja_arm_tame (s : Machine) (insn : Insn) (npc : Nat) (o : StepEnd)
    (h : ja_arm s insn npc = some o) : tame s o := by
  unfold ja_arm at h
  try dsimp only at h
  cases h
  exact ⟨by simp [stateOf], fun t e hte => by cases hte <;> simp⟩

lemma cond_jmp_imm_tame (s : Machine) (insn : Insn) (npc : Nat) (pred : Nat → Bool) (o : StepEnd)
    (h : cond_jmp_imm s insn npc pred = some o) : tame s o := by
  unfold cond_jmp_imm at h
  try dsimp only at h
  repeat' split at h
  all_goals cases h <;> exact ⟨by simp [stateOf], fun t e hte => by cases hte <;> simp⟩

lemma cond_jmp_reg_tame (s : Machine) (insn : Insn) (npc : Nat) (pred : Nat → Nat → Bool) (o : StepEnd)
    (h : cond_jmp_reg s insn npc pred = some o) : tame s o := by
  unfold cond_jmp_reg at h
  try dsimp only at h
  repeat' split at h
  all_goals cases h <;> exact ⟨by simp [stateOf], fun t e hte => by cases hte <;> simp⟩

lemma syscall_arm_tame (s : Machine) (insn : Insn) (npc : Nat) (o : StepEnd)
    (h : syscall_arm s insn npc = some o) : tame s o := by
  unfold syscall_arm at h
  try dsimp only at h
  repeat' split at h
  all_goals cases h <;> exact ⟨by simp [stateOf], fun t e hte => by cases hte <;> simp⟩

/-- What any dispatch arm guarantees: the call depth moves by at most one
(an increment only after a successful frame write), and a fault leaves
`reg[11]` at its value on entry. -/
def armOut (s : Machine) (o : StepEnd) : Prop :=
  ((stateOf o).call_depth = s.call_depth ∨
    ((stateOf o).call_depth = s.call_depth + 1 ∧ s.call_depth < s.call_frames.length) ∨
    (stateOf o).call_depth = s.call_depth - 1) ∧
  ∀ t e, o = .faulted t e → t.reg 11 = s.reg 11

lemma tame_armOut (s : Machine) (o : StepEnd) (h : tame s o) : armOut s o :=
  ⟨Or.inl h.1, h.2⟩

lemma push_frame_out (s t : Machine) (ok : Bool) (h : push_frame s = some (t, ok)) :
    t.call_depth = s.call_depth + 1 ∧ s.call_depth < s.call_frames.length ∧
    t.reg 11 = s.reg 11 ∧ t.config = s.config ∧
    (ok = false ↔ t.call_depth = s.config.max_call_depth) ∧
    (ok = false → t.program_result = .error .CallDepthExceeded) := by
  unfold push_frame at h
  dsimp only at h
  split at h
  case isFalse => cases h
  case isTrue hlt =>
    split at h
    case isTrue hmax =>
      cases h
      exact ⟨rfl, hlt, rfl, rfl, ⟨fun _ => hmax, fun _ => rfl⟩, fun _ => rfl⟩
    case isFalse hmax =>
      split at h
      case isTrue hdyn =>
        cases h
        refine ⟨rfl, hlt, ?_, rfl,
          ⟨fun hf => absurd hf (by simp), fun hm => absurd hm hmax⟩,
          fun hf => absurd hf (by simp)⟩
        dsimp only
        rw [fset_at_ne _ 10 11 _ (by decide)]
      case isFalse hdyn =>
        cases h
        exact ⟨rfl, hlt, rfl, rfl,
          ⟨fun hf => absurd hf (by simp), fun hm => absurd hm hmax⟩,
          fun hf => absurd hf (by simp)⟩

lemma call_reg_arm_out (s : Machine) (insn : Insn) (npc : Nat) (o : StepEnd)
    (h : call_reg_arm s insn npc = some o) : armOut s o := by
  unfold call_reg_arm at h
  dsimp only at h
  cases htp : callx_target s insn with
  | none => rw [htp] at h; cases h
  | some target =>
    rw [htp] at h
    dsimp only at h
    cases hpf : push_frame s with
    | none => rw [hpf] at h; cases h
    | some pr =>
      obtain ⟨s1, ok⟩ := pr
      rw [hpf] at h
      dsimp only at h
      obtain ⟨hd1, hlt, hr11, hcfg, hiff, hpr⟩ := push_frame_out s s1 ok hpf
      by_cases hok : ok = false
      · rw [if_pos hok] at h
        cases h
        exact ⟨Or.inr (Or.inl ⟨hd1, hlt⟩), fun t e hte => by cases hte; exact hr11⟩
      · rw [if_neg hok] at h
        cases hcp : check_pc s1 (wsub64 target s1.program_vm_addr / 8) with
        | none =>
          rw [hcp] at h
          cases h
          exact ⟨Or.inr (Or.inl ⟨hd1, hlt⟩), fun t e hte => by cases hte; exact hr11⟩
        | some npc2 =>
          rw [hcp] at h
          dsimp only at h
          split at h
          · cases h
            exact ⟨Or.inr (Or.inl ⟨by simpa using hd1, hlt⟩),
              fun t e hte => by cases hte; simpa using hr11⟩
          · cases h
            exact ⟨Or.inr (Or.inl ⟨by simpa using hd1, hlt⟩),
              fun t e hte => by cases hte <;> simp⟩

lemma call_imm_arm_out (s : Machine) (insn : Insn) (npc : Nat) (o : StepEnd)
    (h : call_imm_arm s insn npc = some o) : armOut s o := by
  unfold call_imm_arm at h
  dsimp only at h
  cases hlu : v0_syscall_lookup s insn with
  | some f =>
    rw [hlu] at h
    dsimp only at h
    cases hres : (dispatch_syscall s f).program_result with
    | ok v =>
      rw [hres] at h
      cases h
      exact ⟨Or.inl (by simp [stateOf]), fun t e hte => by cases hte <;> simp⟩
    | error e =>
      rw [hres] at h
      cases h
      exact ⟨Or.inl (by simp [stateOf]), fun t e hte => by cases hte <;> simp⟩
  | none =>
    rw [hlu] at h
    dsimp only at h
    cases hfr : s.function_registry (s.version.calc_call_imm_target_pc (s.reg 11) insn.imm) with
    | none =>
      rw [hfr] at h
      cases h
      exact ⟨Or.inl rfl, fun t e hte => by cases hte; rfl⟩
    | some target =>
      rw [hfr] at h
      dsimp only at h
      cases hpf : push_frame s with
      | none => rw [hpf] at h; cases h
      | some pr =>
        obtain ⟨s1, ok⟩ := pr
        rw [hpf] at h
        dsimp only at h
        obtain ⟨hd1, hlt, hr11, hcfg, hiff, hpr⟩ := push_frame_out s s1 ok hpf
        by_cases hok : ok = false
        · rw [if_pos hok] at h
          cases h
          exact ⟨Or.inr (Or.inl ⟨hd1, hlt⟩), fun t e hte => by cases hte; exact hr11⟩
        · rw [if_neg hok] at h
          cases hcp : check_pc s1 target with
          | none =>
            rw [hcp] at h
            cases h
            exact ⟨Or.inr (Or.inl ⟨hd1, hlt⟩), fun t e hte => by cases hte; exact hr11⟩
          | some npc2 =>
            rw [hcp] at h
            cases h
            exact ⟨Or.inr (Or.inl ⟨by simpa using hd1, hlt⟩),
              fun t e hte => by cases hte <;> simp⟩

lemma exit_arm_out (s : Machine) (insn : Insn) (npc : Nat) (o : StepEnd)
    (h : exit_arm s insn npc = some o) : armOut s o := by
  unfold exit_arm at h
  dsimp only at h
  split at h
  · cases h
    exact ⟨Or.inl rfl, fun t e hte => by cases hte; rfl⟩
  · split at h
    · split at h
      · cases h
        exact ⟨Or.inl rfl, fun t e hte => by cases hte; rfl⟩
      · cases h
        exact ⟨Or.inl rfl, fun t e hte => by cases hte <;> simp⟩
    · repeat' split at h
      all_goals
        cases h <;>
          refine ⟨Or.inr (Or.inr (by simp [stateOf])), fun t e hte => ?_⟩ <;>
            (cases hte <;>
              (dsimp only;
               rw [fset_at_ne _ 9 11 _ (by decide), fset_at_ne _ 8 11 _ (by decide),
                 fset_at_ne _ 7 11 _ (by decide), fset_at_ne _ 6 11 _ (by decide),
                 fset_at_ne _ 10 11 _ (by decide)]))

set_option maxHeartbeats 4000000 in
lemma dispatch_out (s : Machine) (insn : Insn) (npc : Nat) (o : StepEnd)
    (h : dispatch s insn npc = some o) : armOut s o := by
  unfold dispatch at h
  cases hdec : decodeArm s.version insn.opc <;> rw [hdec] at h <;> dsimp only at h <;>
    first
      | exact tame_armOut _ _ (alu1_arm_tame _ _ _ _ _ h)
      | exact tame_armOut _ _ (alu2_arm_tame _ _ _ _ _ _ h)
      | exact tame_armOut _ _ (div_reg_arm_tame _ _ _ _ _ _ _ _ h)
      | exact tame_armOut _ _ (endian_arm_tame _ _ _ _ _ h)
      | exact tame_armOut _ _ (load_arm_tame _ _ _ _ _ h)
      | exact tame_armOut _ _ (store_imm_arm_tame _ _ _ _ _ h)
      | exact tame_armOut _ _ (store_reg_arm_tame _ _ _ _ _ h)
      | exact tame_armOut _ _ (mov_imm_arm_tame _ _ _ _ _ h)
      | exact tame_armOut _ _ (mov_reg_arm_tame _ _ _ _ _ h)
      | exact tame_armOut _ _ (lddw_arm_tame _ _ _ _ h)
      | exact tame_armOut _ _ (ja_arm_tame _ _ _ _ h)
      | exact tame_armOut _ _ (cond_jmp_imm_tame _ _ _ _ _ h)
      | exact tame_armOut _ _ (cond_jmp_reg_tame _ _ _ _ _ h)
      | exact tame_armOut _ _ (syscall_arm_tame _ _ _ _ h)
      | exact call_reg_arm_out _ _ _ _ h
      | exact call_imm_arm_out _ _ _ _ h
      | exact exit_arm_out _ _ _ _ h
      | (cases h; exact ⟨Or.inl rfl, fun t e hte => by cases hte; rfl⟩)
      | (split at h <;>
          first
            | exact tame_armOut _ _ (alu1_arm_tame _ _ _ _ _ h)
            | exact tame_armOut _ _ (alu2_arm_tame _ _ _ _ _ _ h))

lemma stepRun_out (s : Machine) (o : StepEnd) (h : stepRun s = some o) :
    ((stateOf o).call_depth = s.call_depth ∨
      ((stateOf o).call_depth = s.call_depth + 1 ∧ s.call_depth < s.call_frames.length) ∨
      (stateOf o).call_depth = s.call_depth - 1) ∧
    ∀ t e, o = .faulted t e → t.reg 11 = s.reg 11 := by
  unfold stepRun at h
  split at h
  · cases h
    exact ⟨Or.inl rfl, fun t e hte => by cases hte; rfl⟩
  · dsimp only at h
    split at h
    · cases h
      exact ⟨Or.inl rfl, fun t e hte => by cases hte; rfl⟩
    · split at h
      · cases h
      · obtain ⟨hd, hf⟩ := dispatch_out _ _ _ _ h
        constructor
        · simpa using hd
        · intro t e hte
          simpa using hf t e hte

/-- C3: every fault raised during `step()` halts the interpreter at once —
the pc of the faulting instruction (`reg[11]` on entry, never advanced on a
fault path) is committed to the VM's external register slot 11, the fault
kind is written to the program result, and `step` returns `false`. -/
theorem claim3_fault_halts (s t : Machine) (e : EbpfError)
    (h : stepRun s = some (.faulted t e)) :
    t.reg 11 = s.reg 11 ∧
    step s = some (false, { t with vm_registers := fset t.vm_registers 11 (s.reg 11),
                                   program_result := .error e }) := by
  have h11 : t.reg 11 = s.reg 11 := (stepRun_out s _ h).2 t e rfl
  refine ⟨h11, ?_⟩
  unfold step
  rw [h]
  dsimp only
  rw [h11]

/-- The state after the `ExecutionOverrun` fault on the empty program. -/
def c3t : Machine := { base with due_insn_count := 1 }

theorem claim3_witness :
    c3t.reg 11 = base.reg 11 ∧
    step base = some (false, { c3t with vm_registers := fset c3t.vm_registers 11 (base.reg 11),
                                        program_result := .error .ExecutionOverrun }) :=
  claim3_fault_halts base c3t .ExecutionOverrun rfl

/-- C7: `push_frame` increments the depth and faults `CallDepthExceeded`
exactly when the new depth equals `config.max_call_depth`; consequently,
from any state whose frame vector has the configured length and whose depth
is within the bound, the depth after every completed step (successful or
faulting) still satisfies `call_depth ≤ max_call_depth`. -/
theorem claim7_call_depth_bound :
    (∀ s t ok, push_frame s = some (t, ok) →
        t.call_depth = s.call_depth + 1 ∧
        (ok = false ↔ t.call_depth = s.config.max_call_depth) ∧
        (ok = false → t.program_result = .error .CallDepthExceeded)) ∧
    (∀ s b s', s.call_frames.length = s.config.max_call_depth →
        s.call_depth ≤ s.config.max_call_depth → step s = some (b, s') →
        s'.call_depth ≤ s.config.max_call_depth) := by
  constructor
  · intro s t ok h
    obtain ⟨h1, _, _, _, h5, h6⟩ := push_frame_out s t ok h
    exact ⟨h1, h5, h6⟩
  · intro s b s' hlen hd h
    unfold step at h
    cases ho : stepRun s with
    | none => rw [ho] at h; cases h
    | some o =>
      rw [ho] at h
      have hout := (stepRun_out s o ho).1
      cases o <;> cases h <;>
        · dsimp only [stateOf] at hout
          rcases hout with h1 | ⟨h1, h2⟩ | h1 <;> (try dsimp only) <;> omega

/-- The frame state produced by pushing on the baseline machine. -/
def c7t : Machine := ((push_frame base).getD (base, true)).1

/-- The Rust return value of that push. -/
def c7ok : Bool := ((push_frame base).getD (base, true)).2

/-- A machine about to run `ADD64_IMM r0, 0`. -/
def c7s : Machine := { base with program := [0x07, 0, 0, 0, 0, 0, 0, 0] }

/-- The state after one step of `c7s`. -/
def c7s2 : Machine := ((step c7s).getD (true, c7s)).2

theorem claim7_witness :
    (c7t.call_depth = base.call_depth + 1 ∧
      (c7ok = false ↔ c7t.call_depth = base.config.max_call_depth) ∧
      (c7ok = false → c7t.program_result = .error .CallDepthExceeded)) ∧
    c7s2.call_depth ≤ c7s.config.max_call_depth :=
  ⟨claim7_call_depth_bound.1 base c7t c7ok rfl,
   claim7_call_depth_bound.2 c7s true c7s2 (by decide) (by decide) rfl⟩

lemma get_insn_in_range (p : List Nat) (pc : Nat) (insn : Insn)
    (hf : get_insn_unchecked p pc = some insn) : ¬ wrap64 (pc * 8) ≥ p.length := by
  intro hge
  unfold get_insn_unchecked at hf
  dsimp only at hf
  have h0 : progByte p (wrap64 (pc * 8)) = none := by
    simp [progByte, List.get?_eq_none]
    omega
  rw [h0] at hf
  exact absurd hf (by simp)

lemma stepRun_dispatch (s : Machine) (insn : Insn)
    (hm : ¬(s.config.enable_instruction_meter = true ∧ s.due_insn_count ≥ s.previous_instruction_meter))
    (hf : get_insn_unchecked s.program (s.reg 11) = some insn) :
    stepRun s = dispatch (traceState (preState s)) insn (wrap64 (s.reg 11 + 1)) := by
  unfold stepRun
  rw [if_neg hm]
  dsimp only
  simp only [preState_reg, preState_program]
  rw [if_neg (get_insn_in_range _ _ _ hf), hf]

/-- C4: a step that executes the dialect's legal `RETURN`/`EXIT` opcode at
call depth zero (with the step's initial meter check passing) terminates
the program with result `Ok(reg[0])` and returns `false`; the register
file is left untouched. -/
theorem claim4_exit_terminates (s : Machine) (insn : Insn)
    (hm : s.config.enable_instruction_meter = true → s.due_insn_count < s.previous_instruction_meter)
    (hf : get_insn_unchecked s.program (s.reg 11) = some insn)
    (hop : (insn.opc = 0x95 ∧ s.version.static_syscalls = false) ∨
           (insn.opc = 0x9d ∧ s.version.static_syscalls = true))
    (hdep : s.call_depth = 0) :
    ∃ t, step s = some (false, t) ∧ t.program_result = .ok (s.reg 0) ∧ t.reg = s.reg := by
  have hm' : ¬(s.config.enable_instruction_meter = true ∧ s.due_insn_count ≥ s.previous_instruction_meter) := by
    rintro ⟨a, b⟩
    exact absurd b (not_le.mpr (hm a))
  have hdec : decodeArm s.version insn.opc = .RETURN_EXIT := by
    rcases hop with ⟨ho, hst⟩ | ⟨ho, hst⟩ <;> rw [ho] <;> simp [decodeArm, hst]
  have hlegal : ¬((insn.opc = 0x95 ∧ s.version.static_syscalls = true) ∨
      (insn.opc = 0x9d ∧ s.version.static_syscalls = false)) := by
    rcases hop with ⟨ho, hst⟩ | ⟨ho, hst⟩ <;> rw [ho] <;> simp [hst]
  have hmeter2 : ¬(s.config.enable_instruction_meter = true ∧
      wrap64 (s.due_insn_count + 1) > s.previous_instruction_meter) := by
    rintro ⟨a, b⟩
    have h1 : wrap64 (s.due_insn_count + 1) ≤ s.due_insn_count + 1 := Nat.mod_le _ _
    have h2 := hm a
    omega
  have hrun : stepRun s = some (.finished (traceState (preState s)) ((traceState (preState s)).reg 0)) := by
    rw [stepRun_dispatch s insn hm' hf]
    unfold dispatch
    simp only [traceState_version, preState_version]
    rw [hdec]
    dsimp only
    unfold exit_arm
    rw [if_neg (by simpa using hlegal)]
    dsimp only
    rw [if_pos (by simpa using hdep)]
    rw [if_neg (by simpa using hmeter2)]
  refine ⟨{ traceState (preState s) with program_result := .ok ((traceState (preState s)).reg 0) }, ?_, ?_, ?_⟩
  · unfold step
    rw [hrun]
  · simp
  · simp

/-- A machine about to execute the legal terminating `EXIT` (opcode 0x95
under the non-static-syscalls dialect) with `reg[0] = 42`. -/
def c4s : Machine := { base with program := [0x95, 0, 0, 0, 0, 0, 0, 0], reg := fset base.reg 0 42 }

/-- The decoded `EXIT` instruction of `c4s`. -/
def c4insn : Insn := { ptr := 0, opc := 0x95, dst := 0, src := 0, off := 0, imm := 0 }

/-- The state after the terminating step of `c4s`. -/
def c4t : Machine := ((step c4s).getD (true, c4s)).2

theorem claim4_witness : step c4s = some (false, c4t) ∧ c4t.program_result = .ok (c4s.reg 0) := by
  obtain ⟨t, h1, h2, h3⟩ := claim4_exit_terminates c4s c4insn
    (fun hh => absurd hh (by decide)) rfl (Or.inl ⟨rfl, rfl⟩) rfl
  have he : c4t = t := by unfold c4t; rw [h1]; rfl
  rw [he]
  exact ⟨h1, h2⟩

lemma regGet_pos (r : Fin 12 → Nat) (i : Nat) (h : i < 12) : regGet r i = some (r ⟨i, h⟩) := by
  unfold regGet
  rw [dif_pos h]

lemma regSet_pos (r : Fin 12 → Nat) (i v : Nat) (h : i < 12) :
    regSet r i v = some (fun j => if j = ⟨i, h⟩ then v else r j) := by
  unfold regSet
  rw [dif_pos h]

/-- Total view of a register read, used to state per-arm results. -/
def regAt (s : Machine) (i : Nat) : Nat := (regGet s.reg i).getD 0

lemma alu1_arm_eq (s : Machine) (dst npc : Nat) (g : Nat → AluRes) (h : dst < 12) (v : Nat)
    (hg : g (s.reg ⟨dst, h⟩) = .val v) :
    alu1_arm s dst npc g =
      some (.cont { s with reg := fun j => if j = ⟨dst, h⟩ then v else s.reg j } npc) := by
  unfold alu1_arm
  rw [regGet_pos _ _ h]
  dsimp only
  rw [hg]
  dsimp only
  rw [regSet_pos _ _ _ h]

lemma regAt_pos (s : Machine) (i : Nat) (h : i < 12) : regAt s i = s.reg ⟨i, h⟩ := by
  unfold regAt
  rw [regGet_pos _ _ h]
  rfl

lemma step_alu1_result (s : Machine) (insn : Insn) (g : Nat → AluRes) (v : Nat)
    (hm : ¬(s.config.enable_instruction_meter = true ∧ s.due_insn_count ≥ s.previous_instruction_meter))
    (hf : get_insn_unchecked s.program (s.reg 11) = some insn)
    (harm : dispatch (traceState (preState s)) insn (wrap64 (s.reg 11 + 1)) =
      alu1_arm (traceState (preState s)) insn.dst (wrap64 (s.reg 11 + 1)) g)
    (hd12 : insn.dst < 12) (hd11 : insn.dst ≠ 11)
    (hg : g (s.reg ⟨insn.dst, hd12⟩) = .val v) :
    ∃ t, step s = some (true, t) ∧ regAt t insn.dst = v := by
  have hg2 : g ((traceState (preState s)).reg ⟨insn.dst, hd12⟩) = .val v := by
    rw [traceState_reg, preState_reg]
    exact hg
  have hrun : stepRun s = some (.cont { traceState (preState s) with
      reg := fun j => if j = ⟨insn.dst, hd12⟩ then v else (traceState (preState s)).reg j }
      (wrap64 (s.reg 11 + 1))) := by
    rw [stepRun_dispatch s insn hm hf, harm]
    exact alu1_arm_eq _ _ _ g hd12 v hg2
  refine ⟨{ { traceState (preState s) with
      reg := fun j => if j = ⟨insn.dst, hd12⟩ then v else (traceState (preState s)).reg j : Machine } with
      reg := fset (fun j => if j = ⟨insn.dst, hd12⟩ then v else (traceState (preState s)).reg j) 11
        (wrap64 (s.reg 11 + 1)) }, ?_, ?_⟩
  · unfold step
    rw [hrun]
  · unfold regAt
    rw [show ({ { traceState (preState s) with
      reg := fun j => if j = ⟨insn.dst, hd12⟩ then v else (traceState (preState s)).reg j : Machine } with
      reg := fset (fun j => if j = ⟨insn.dst, hd12⟩ then v else (traceState (preState s)).reg j) 11
        (wrap64 (s.reg 11 + 1)) : Machine }).reg =
      fset (fun j => if j = ⟨insn.dst, hd12⟩ then v else (traceState (preState s)).reg j) 11
        (wrap64 (s.reg 11 + 1)) from rfl]
    rw [regGet_pos _ _ hd12]
    rw [fset_at_ne _ 11 ⟨insn.dst, hd12⟩ _ (by simpa using hd11)]
    simp

/-- C8: `SUB32_IMM`/`SUB64_IMM` compute `imm − dst` under
`swap_sub_reg_imm_operands` and `dst − imm` otherwise, in the operand
width's modular arithmetic (the 32-bit result widened by the dialect's
`sign_extension`). -/
theorem claim8_sub_imm_operands (s : Machine) (insn : Insn)
    (hm : ¬(s.config.enable_instruction_meter = true ∧ s.due_insn_count ≥ s.previous_instruction_meter))
    (hf : get_insn_unchecked s.program (s.reg 11) = some insn)
    (hdst : insn.dst < 11)
    (hop : insn.opc = 0x14 ∨ insn.opc = 0x17) :
    ∃ t, step s = some (true, t) ∧
      (insn.opc = 0x14 →
        regAt t insn.dst =
          (if s.version.swap_sub_reg_imm_operands = true
           then sign_extension s.version (wrapI 32 (wrapI 32 insn.imm - toI32 (regAt s insn.dst)))
           else sign_extension s.version (wrapI 32 (toI32 (regAt s insn.dst) - wrapI 32 insn.imm)))) ∧
      (insn.opc = 0x17 →
        regAt t insn.dst =
          (if s.version.swap_sub_reg_imm_operands = true
           then wsub64 (intToU 64 insn.imm) (regAt s insn.dst)
           else wsub64 (regAt s insn.dst) (intToU 64 insn.imm))) := by
  have hd12 : insn.dst < 12 := by omega
  have hd11 : insn.dst ≠ 11 := by omega
  rw [regAt_pos s insn.dst hd12]
  rcases hop with ho | ho
  · have hdec : decodeArm s.version insn.opc = .SUB32_IMM := by
      rw [ho]; simp [decodeArm]
    by_cases hsw : s.version.swap_sub_reg_imm_operands = true
    · obtain ⟨t, h1, h2⟩ := step_alu1_result s insn
        (fun d => .val (sign_extension s.version (wrapI 32 (wrapI 32 insn.imm - toI32 d))))
        (sign_extension s.version (wrapI 32 (wrapI 32 insn.imm - toI32 (s.reg ⟨insn.dst, hd12⟩))))
        hm hf (by
          unfold dispatch
          simp only [traceState_version, preState_version]
          rw [hdec]
          dsimp only
          rw [if_pos hsw]) hd12 hd11 rfl
      exact ⟨t, h1, fun _ => by rw [h2, if_pos hsw],
        fun h17 => absurd (ho.symm.trans h17) (by decide)⟩
    · obtain ⟨t, h1, h2⟩ := step_alu1_result s insn
        (fun d => .val (sign_extension s.version (wrapI 32 (toI32 d - wrapI 32 insn.imm))))
        (sign_extension s.version (wrapI 32 (toI32 (s.reg ⟨insn.dst, hd12⟩) - wrapI 32 insn.imm)))
        hm hf (by
          unfold dispatch
          simp only [traceState_version, preState_version]
          rw [hdec]
          dsimp only
          rw [if_neg hsw]) hd12 hd11 rfl
      exact ⟨t, h1, fun _ => by rw [h2, if_neg hsw],
        fun h17 => absurd (ho.symm.trans h17) (by decide)⟩
  · have hdec : decodeArm s.version insn.opc = .SUB64_IMM := by
      rw [ho]; simp [decodeArm]
    by_cases hsw : s.version.swap_sub_reg_imm_operands = true
    · obtain ⟨t, h1, h2⟩ := step_alu1_result s insn
        (fun d => .val (wsub64 (intToU 64 insn.imm) d))
        (wsub64 (intToU 64 insn.imm) (s.reg ⟨insn.dst, hd12⟩))
        hm hf (by
          unfold dispatch
          simp only [traceState_version, preState_version]
          rw [hdec]
          dsimp only
          rw [if_pos hsw]) hd12 hd11 rfl
      exact ⟨t, h1, fun h14 => absurd (ho.symm.trans h14) (by decide),
        fun _ => by rw [h2, if_pos hsw]⟩
    · obtain ⟨t, h1, h2⟩ := step_alu1_result s insn
        (fun d => .val (wsub64 d (intToU 64 insn.imm)))
        (wsub64 (s.reg ⟨insn.dst, hd12⟩) (intToU 64 insn.imm))
        hm hf (by
          unfold dispatch
          simp only [traceState_version, preState_version]
          rw [hdec]
          dsimp only
          rw [if_neg hsw]) hd12 hd11 rfl
      exact ⟨t, h1, fun h14 => absurd (ho.symm.trans h14) (by decide),
        fun _ => by rw [h2, if_neg hsw]⟩

/-- A machine about to execute `SUB64_IMM r2, 5` with `r2 = 12` under the
non-swapping dialect. -/
def c8s : Machine := { base with program := [0x17, 0x02, 0, 0, 5, 0, 0, 0], reg := fset base.reg 2 12 }

/-- The decoded instruction of `c8s`. -/
def c8insn : Insn := { ptr := 0, opc := 0x17, dst := 2, src := 0, off := 0, imm := 5 }

/-- The state after one step of `c8s`. -/
def c8t : Machine := ((step c8s).getD (true, c8s)).2

theorem claim8_witness : step c8s = some (true, c8t) ∧ regAt c8t 2 = 7 := by
  obtain ⟨t, h1, h2, h3⟩ := claim8_sub_imm_operands c8s c8insn (by decide) rfl (by decide) (Or.inr rfl)
  have he : c8t = t := by unfold c8t; rw [h1]; rfl
  rw [he]
  refine ⟨h1, ?_⟩
  have h4 := h3 rfl
  rw [show (2 : Nat) = c8insn.dst from rfl, h4]
  decide

/-- C9: `LE` (when the dialect enables it) and `BE` with immediate 16, 32
or 64 convert the low bits of `dst` (identity for `to_le` on the
little-endian host, byte swap for `to_be`) zero-extended to 64 bits; any
other immediate faults `InvalidInstruction` and leaves the register file
unchanged. -/
theorem claim9_le_be (s : Machine) (insn : Insn)
    (hm : ¬(s.config.enable_instruction_meter = true ∧ s.due_insn_count ≥ s.previous_instruction_meter))
    (hf : get_insn_unchecked s.program (s.reg 11) = some insn)
    (hdst : insn.dst < 11)
    (hop : (insn.opc = 0xd4 ∧ s.version.disable_le = false) ∨ insn.opc = 0xdc) :
    (insn.imm = 16 ∨ insn.imm = 32 ∨ insn.imm = 64 →
      ∃ t, step s = some (true, t) ∧
        regAt t insn.dst =
          (if insn.opc = 0xd4 then
            (if insn.imm = 16 then regAt s insn.dst % 65536
             else if insn.imm = 32 then regAt s insn.dst % 4294967296
             else regAt s insn.dst)
           else
            (if insn.imm = 16 then bswap 2 (regAt s insn.dst % 65536)
             else if insn.imm = 32 then bswap 4 (regAt s insn.dst % 4294967296)
             else bswap 8 (regAt s insn.dst)))) ∧
    (insn.imm ≠ 16 → insn.imm ≠ 32 → insn.imm ≠ 64 →
      ∃ t, step s = some (false, t) ∧ t.program_result = .error .InvalidInstruction ∧
        t.reg = s.reg) := by
  have hd12 : insn.dst < 12 := by omega
  have hd11 : insn.dst ≠ 11 := by omega
  have hople : insn.opc = 0xd4 → insn.opc = 0xdc → False := by
    intro a b; rw [a] at b; exact absurd b (by decide)
  constructor
  · intro himm
    rw [regAt_pos s insn.dst hd12]
    rcases hop with ⟨ho, hle⟩ | ho
    · have hdec : decodeArm s.version insn.opc = .LE := by
        rw [ho]; simp [decodeArm, hle]
      rcases himm with h16 | h32 | h64
      · obtain ⟨t, h1, h2⟩ := step_alu1_result s insn (fun d => .val (d % 65536))
          (s.reg ⟨insn.dst, hd12⟩ % 65536) hm hf (by
            unfold dispatch
            simp only [traceState_version, preState_version]
            rw [hdec]
            dsimp only
            rw [if_pos h16]
            rfl) hd12 hd11 rfl
        exact ⟨t, h1, by rw [h2, if_pos ho, if_pos h16]⟩
      · obtain ⟨t, h1, h2⟩ := step_alu1_result s insn (fun d => .val (d % 4294967296))
          (s.reg ⟨insn.dst, hd12⟩ % 4294967296) hm hf (by
            unfold dispatch
            simp only [traceState_version, preState_version]
            rw [hdec]
            dsimp only
            rw [if_neg (by rw [h32]; decide), if_pos h32]
            rfl) hd12 hd11 rfl
        exact ⟨t, h1, by rw [h2, if_pos ho, if_neg (by rw [h32]; decide), if_pos h32]⟩
      · obtain ⟨t, h1, h2⟩ := step_alu1_result s insn (fun d => .val d)
          (s.reg ⟨insn.dst, hd12⟩) hm hf (by
            unfold dispatch
            simp only [traceState_version, preState_version]
            rw [hdec]
            dsimp only
            rw [if_neg (by rw [h64]; decide), if_neg (by rw [h64]; decide), if_pos h64]
            rfl) hd12 hd11 rfl
        exact ⟨t, h1, by
          rw [h2, if_pos ho, if_neg (by rw [h64]; decide), if_neg (by rw [h64]; decide)]⟩
    · have hdec : decodeArm s.version insn.opc = .BE := by
        rw [ho]; simp [decodeArm]
      have hone : ¬ insn.opc = 0xd4 := by rw [ho]; decide
      rcases himm with h16 | h32 | h64
      · obtain ⟨t, h1, h2⟩ := step_alu1_result s insn (fun d => .val (bswap 2 (d % 65536)))
          (bswap 2 (s.reg ⟨insn.dst, hd12⟩ % 65536)) hm hf (by
            unfold dispatch
            simp only [traceState_version, preState_version]
            rw [hdec]
            dsimp only
            rw [if_pos h16]
            rfl) hd12 hd11 rfl
        exact ⟨t, h1, by rw [h2, if_neg hone, if_pos h16]⟩
      · obtain ⟨t, h1, h2⟩ := step_alu1_result s insn (fun d => .val (bswap 4 (d % 4294967296)))
          (bswap 4 (s.reg ⟨insn.dst, hd12⟩ % 4294967296)) hm hf (by
            unfold dispatch
            simp only [traceState_version, preState_version]
            rw [hdec]
            dsimp only
            rw [if_neg (by rw [h32]; decide), if_pos h32]
            rfl) hd12 hd11 rfl
        exact ⟨t, h1, by rw [h2, if_neg hone, if_neg (by rw [h32]; decide), if_pos h32]⟩
      · obtain ⟨t, h1, h2⟩ := step_alu1_result s insn (fun d => .val (bswap 8 d))
          (bswap 8 (s.reg ⟨insn.dst, hd12⟩)) hm hf (by
            unfold dispatch
            simp only [traceState_version, preState_version]
            rw [hdec]
            dsimp only
            rw [if_neg (by rw [h64]; decide), if_neg (by rw [h64]; decide), if_pos h64]
            rfl) hd12 hd11 rfl
        exact ⟨t, h1, by
          rw [h2, if_neg hone, if_neg (by rw [h64]; decide), if_neg (by rw [h64]; decide)]⟩
  · intro h16 h32 h64
    have hconv : ∀ v : VersionFlags, decodeArm v insn.opc = .LE ∨ decodeArm v insn.opc = .BE →
      True := fun _ _ => trivial
    have hrun : stepRun s = some (.faulted (traceState (preState s)) .InvalidInstruction) := by
      rw [stepRun_dispatch s insn hm hf]
      unfold dispatch
      simp only [traceState_version, preState_version]
      rcases hop with ⟨ho, hle⟩ | ho
      · rw [show decodeArm s.version insn.opc = .LE from by rw [ho]; simp [decodeArm, hle]]
        dsimp only
        rw [if_neg h16, if_neg h32, if_neg h64]
        rfl
      · rw [show decodeArm s.version insn.opc = .BE from by rw [ho]; simp [decodeArm]]
        dsimp only
        rw [if_neg h16, if_neg h32, if_neg h64]
        rfl
    refine ⟨{ traceState (preState s) with
        vm_registers := fset (traceState (preState s)).vm_registers 11 ((traceState (preState s)).reg 11),
        program_result := .error .InvalidInstruction }, ?_, rfl, ?_⟩
    · unfold step
      rw [hrun]
    · simp

/-- A machine about to execute `BE r1, 16` with `r1 = 0x1234`. -/
def c9s : Machine := { base with program := [0xdc, 0x01, 0, 0, 16, 0, 0, 0], reg := fset base.reg 1 4660 }

/-- The decoded instruction of `c9s`. -/
def c9insn : Insn := { ptr := 0, opc := 0xdc, dst := 1, src := 0, off := 0, imm := 16 }

/-- The state after one step of `c9s`. -/
def c9t : Machine := ((step c9s).getD (true, c9s)).2

theorem claim9_witness : step c9s = some (true, c9t) ∧ regAt c9t 1 = 13330 := by
  obtain ⟨t, h1, h2⟩ := (claim9_le_be c9s c9insn (by decide) rfl (by decide) (Or.inr rfl)).1 (Or.inl rfl)
  have he : c9t = t := by unfold c9t; rw [h1]; rfl
  rw [he]
  refine ⟨h1, ?_⟩
  rw [show (1 : Nat) = c9insn.dst from rfl, h2]
  decide

lemma step_fault_commit (s : Machine) (insn : Insn) (t2 : Machine) (e : EbpfError)
    (hm : ¬(s.config.enable_instruction_meter = true ∧ s.due_insn_count ≥ s.previous_instruction_meter))
    (hf : get_insn_unchecked s.program (s.reg 11) = some insn)
    (hd : dispatch (traceState (preState s)) insn (wrap64 (s.reg 11 + 1)) = some (.faulted t2 e)) :
    ∃ t, step s = some (false, t) ∧ t.program_result = .error e := by
  refine ⟨{ t2 with vm_registers := fset t2.vm_registers 11 (t2.reg 11), program_result := .error e }, ?_, rfl⟩
  unfold step
  rw [stepRun_dispatch s insn hm hf, hd]

lemma toI32_of_low32_zero (sv : Nat) (h : sv % 4294967296 = 0) : toI32 sv = 0 := by
  unfold toI32 toSigned
  norm_num [h]

lemma toI64_of_zero (sv : Nat) (h : sv = 0) : toI64 sv = 0 := by
  rw [h]
  decide

lemma div_fault_of_dispatch (s : Machine) (insn : Insn) (sv : Nat)
    (c1 : Nat → Option EbpfError) (c2 : Nat → Nat → Option EbpfError) (g : Nat → Nat → Nat)
    (hm : ¬(s.config.enable_instruction_meter = true ∧ s.due_insn_count ≥ s.previous_instruction_meter))
    (hf : get_insn_unchecked s.program (s.reg 11) = some insn)
    (harm : dispatch (traceState (preState s)) insn (wrap64 (s.reg 11 + 1)) =
      div_reg_arm (traceState (preState s)) insn.dst insn.src (wrap64 (s.reg 11 + 1)) c1 c2 g)
    (hsv : regGet s.reg insn.src = some sv)
    (hc : c1 sv = some .DivideByZero) :
    ∃ t, step s = some (false, t) ∧ t.program_result = .error .DivideByZero := by
  refine step_fault_commit s insn (traceState (preState s)) .DivideByZero hm hf ?_
  rw [harm]
  unfold div_reg_arm
  rw [show regGet (traceState (preState s)).reg insn.src = some sv from by
    rw [traceState_reg, preState_reg]; exact hsv]
  dsimp only
  rw [hc]

/-- C1 (amended): the register-operand divide/modulo arms fault
`DivideByZero` on a zero divisor (at the operand width); the
immediate-operand variants carry no such check in the interpreter — a zero
immediate divisor is an unchecked division (a runtime abort, see the
counterexample), excluded upstream by the verifier. -/
theorem claim1_reg_divzero (s : Machine) (insn : Insn) (sv : Nat)
    (hm : ¬(s.config.enable_instruction_meter = true ∧ s.due_insn_count ≥ s.previous_instruction_meter))
    (hf : get_insn_unchecked s.program (s.reg 11) = some insn)
    (hsv : regGet s.reg insn.src = some sv)
    (hcase :
      (s.version.enable_pqr = false ∧ (insn.opc = 0x3c ∨ insn.opc = 0x9c) ∧ sv % 4294967296 = 0) ∨
      (s.version.enable_pqr = false ∧ (insn.opc = 0x3f ∨ insn.opc = 0x9f) ∧ sv = 0) ∨
      (s.version.enable_pqr = true ∧
        (insn.opc = 0x4e ∨ insn.opc = 0x6e ∨ insn.opc = 0xce ∨ insn.opc = 0xee) ∧
        sv % 4294967296 = 0) ∨
      (s.version.enable_pqr = true ∧
        (insn.opc = 0x5e ∨ insn.opc = 0x7e ∨ insn.opc = 0xde ∨ insn.opc = 0xfe) ∧ sv = 0)) :
    ∃ t, step s = some (false, t) ∧ t.program_result = .error .DivideByZero := by
  have hsv2 : regGet (traceState (preState s)).reg insn.src = some sv := by
    rw [traceState_reg, preState_reg]
    exact hsv
  rcases hcase with ⟨hpq, ho, hz⟩ | ⟨hpq, ho, hz⟩ | ⟨hpq, ho, hz⟩ | ⟨hpq, ho, hz⟩
  · rcases ho with ho | ho
    · have hdec : decodeArm s.version insn.opc = .DIV32_REG := by
        rw [ho]; simp [decodeArm, hpq]
      refine div_fault_of_dispatch s insn sv
        (fun r => if toU32 r = 0 then some .DivideByZero else none)
        (fun _ _ => none)
        (fun d r => toU32 d / toU32 r) hm hf ?_ hsv ?_
      · unfold dispatch
        simp only [traceState_version, preState_version]
        rw [hdec]
      · dsimp only
        rw [if_pos (show toU32 sv = 0 from hz)]
    · have hdec : decodeArm s.version insn.opc = .MOD32_REG := by
        rw [ho]; simp [decodeArm, hpq]
      refine div_fault_of_dispatch s insn sv
        (fun r => if toU32 r = 0 then some .DivideByZero else none)
        (fun _ _ => none)
        (fun d r => toU32 d % toU32 r) hm hf ?_ hsv ?_
      · unfold dispatch
        simp only [traceState_version, preState_version]
        rw [hdec]
      · dsimp only
        rw [if_pos (show toU32 sv = 0 from hz)]
  · rcases ho with ho | ho
    · have hdec : decodeArm s.version insn.opc = .DIV64_REG := by
        rw [ho]; simp [decodeArm, hpq]
      refine div_fault_of_dispatch s insn sv
        (fun r => if r = 0 then some .DivideByZero else none)
        (fun _ _ => none)
        (fun d r => d / r) hm hf ?_ hsv ?_
      · unfold dispatch
        simp only [traceState_version, preState_version]
        rw [hdec]
      · dsimp only
        rw [if_pos (show sv = 0 from hz)]
    · have hdec : decodeArm s.version insn.opc = .MOD64_REG := by
        rw [ho]; simp [decodeArm, hpq]
      refine div_fault_of_dispatch s insn sv
        (fun r => if r = 0 then some .DivideByZero else none)
        (fun _ _ => none)
        (fun d r => d % r) hm hf ?_ hsv ?_
      · unfold dispatch
        simp only [traceState_version, preState_version]
        rw [hdec]
      · dsimp only
        rw [if_pos (show sv = 0 from hz)]
  · rcases ho with ho | ho | ho | ho
    · have hdec : decodeArm s.version insn.opc = .UDIV32_REG := by
        rw [ho]; simp [decodeArm, hpq]
      refine div_fault_of_dispatch s insn sv
        (fun r => if toU32 r = 0 then some .DivideByZero else none)
        (fun _ _ => none)
        (fun d r => toU32 d / toU32 r) hm hf ?_ hsv ?_
      · unfold dispatch
        simp only [traceState_version, preState_version]
        rw [hdec]
      · dsimp only
        rw [if_pos (show toU32 sv = 0 from hz)]
    · have hdec : decodeArm s.version insn.opc = .UREM32_REG := by
        rw [ho]; simp [decodeArm, hpq]
      refine div_fault_of_dispatch s insn sv
        (fun r => if toU32 r = 0 then some .DivideByZero else none)
        (fun _ _ => none)
        (fun d r => toU32 d % toU32 r) hm hf ?_ hsv ?_
      · unfold dispatch
        simp only [traceState_version, preState_version]
        rw [hdec]
      · dsimp only
        rw [if_pos (show toU32 sv = 0 from hz)]
    · have hdec : decodeArm s.version insn.opc = .SDIV32_REG := by
        rw [ho]; simp [decodeArm, hpq]
      refine div_fault_of_dispatch s insn sv
        (fun r => if toI32 r = 0 then some .DivideByZero else none)
        (fun d r => if toI32 d = -2147483648 ∧ toI32 r = -1 then some .DivideOverflow else none)
        (fun d r => intToU 32 (Int.tdiv (toI32 d) (toI32 r))) hm hf ?_ hsv ?_
      · unfold dispatch
        simp only [traceState_version, preState_version]
        rw [hdec]
      · dsimp only
        rw [if_pos (toI32_of_low32_zero sv hz)]
    · have hdec : decodeArm s.version insn.opc = .SREM32_REG := by
        rw [ho]; simp [decodeArm, hpq]
      refine div_fault_of_dispatch s insn sv
        (fun r => if toI32 r = 0 then some .DivideByZero else none)
        (fun d r => if toI32 d = -2147483648 ∧ toI32 r = -1 then some .DivideOverflow else none)
        (fun d r => intToU 32 (Int.tmod (toI32 d) (toI32 r))) hm hf ?_ hsv ?_
      · unfold dispatch
        simp only [traceState_version, preState_version]
        rw [hdec]
      · dsimp only
        rw [if_pos (toI32_of_low32_zero sv hz)]
  · rcases ho with ho | ho | ho | ho
    · have hdec : decodeArm s.version insn.opc = .UDIV64_REG := by
        rw [ho]; simp [decodeArm, hpq]
      refine div_fault_of_dispatch s insn sv
        (fun r => if r = 0 then some .DivideByZero else none)
        (fun _ _ => none)
        (fun d r => d / r) hm hf ?_ hsv ?_
      · unfold dispatch
        simp only [traceState_version, preState_version]
        rw [hdec]
      · dsimp only
        rw [if_pos (show sv = 0 from hz)]
    · have hdec : decodeArm s.version insn.opc = .UREM64_REG := by
        rw [ho]; simp [decodeArm, hpq]
      refine div_fault_of_dispatch s insn sv
        (fun r => if r = 0 then some .DivideByZero else none)
        (fun _ _ => none)
        (fun d r => d % r) hm hf ?_ hsv ?_
      · unfold dispatch
        simp only [traceState_version, preState_version]
        rw [hdec]
      · dsimp only
        rw [if_pos (show sv = 0 from hz)]
    · have hdec : decodeArm s.version insn.opc = .SDIV64_REG := by
        rw [ho]; simp [decodeArm, hpq]
      refine div_fault_of_dispatch s insn sv
        (fun r => if toI64 r = 0 then some .DivideByZero else none)
        (fun d r => if toI64 d = -9223372036854775808 ∧ toI64 r = -1 then some .DivideOverflow else none)
        (fun d r => intToU 64 (Int.tdiv (toI64 d) (toI64 r))) hm hf ?_ hsv ?_
      · unfold dispatch
        simp only [traceState_version, preState_version]
        rw [hdec]
      · dsimp only
        rw [if_pos (toI64_of_zero sv hz)]
    · have hdec : decodeArm s.version insn.opc = .SREM64_REG := by
        rw [ho]; simp [decodeArm, hpq]
      refine div_fault_of_dispatch s insn sv
        (fun r => if toI64 r = 0 then some .DivideByZero else none)
        (fun d r => if toI64 d = -9223372036854775808 ∧ toI64 r = -1 then some .DivideOverflow else none)
        (fun d r => intToU 64 (Int.tmod (toI64 d) (toI64 r))) hm hf ?_ hsv ?_
      · unfold dispatch
        simp only [traceState_version, preState_version]
        rw [hdec]
      · dsimp only
        rw [if_pos (toI64_of_zero sv hz)]

/-- A machine about to execute `DIV64_IMM r0, 0` (opcode `0x37`, zero
immediate): the interpreter divides by the immediate with no zero check. -/
def c1imm : Machine := { base with program := [0x37, 0, 0, 0, 0, 0, 0, 0] }

/-- C1 counterexample: a zero immediate divisor does not fault
`DivideByZero`; the unchecked division aborts the interpreter (modelled as
`none`), so the claim's "all eight divide/modulo variants" is too broad. -/
theorem claim1_counterexample : step c1imm = none := rfl

/-- A machine about to execute `DIV64_REG r0, r1` with `r1 = 0`. -/
def c1s : Machine := { base with program := [0x3f, 0x10, 0, 0, 0, 0, 0, 0] }

/-- The decoded instruction of `c1s`. -/
def c1insn : Insn := { ptr := 0, opc := 0x3f, dst := 0, src := 1, off := 0, imm := 0 }

theorem claim1_witness : ∃ t, step c1s = some (false, t) ∧ t.program_result = .error .DivideByZero :=
  claim1_reg_divzero c1s c1insn 0 (by decide) rfl rfl
    (Or.inr (Or.inl ⟨rfl, Or.inl rfl, rfl⟩))

/-- C10: under a dialect with `callx_uses_src_reg` disabled, `CALL_REG`
reads its target from `reg[insn.imm]` with no bounds check on the
immediate: the target is exactly the dynamically indexed register read,
and when the (wrapped) immediate is 12 or more the out-of-bounds access
crashes the embedding (`none`, a Rust index panic) rather than faulting. -/
theorem claim10_callx_imm_unchecked (s : Machine) (insn : Insn)
    (hm : ¬(s.config.enable_instruction_meter = true ∧ s.due_insn_count ≥ s.previous_instruction_meter))
    (hf : get_insn_unchecked s.program (s.reg 11) = some insn)
    (hop : insn.opc = 0x8d)
    (hsrc : s.version.callx_uses_src_reg = false) :
    callx_target s insn = regGet s.reg (intToU 64 insn.imm) ∧
    (12 ≤ intToU 64 insn.imm → step s = none) := by
  have hdec : decodeArm s.version insn.opc = .CALL_REG := by
    rw [hop]; simp [decodeArm]
  constructor
  · unfold callx_target
    rw [hsrc]
    rfl
  · intro hge
    have hrun : stepRun s = none := by
      rw [stepRun_dispatch s insn hm hf]
      unfold dispatch
      simp only [traceState_version, preState_version]
      rw [hdec]
      dsimp only
      unfold call_reg_arm callx_target
      simp only [traceState_version, preState_version, traceState_reg, preState_reg]
      simp only [hsrc, Bool.false_eq_true, if_false]
      rw [show regGet s.reg (intToU 64 insn.imm) = none from by
        unfold regGet; rw [dif_neg (by omega)]]
    unfold step
    rw [hrun]

/-- A machine about to execute `CALL_REG` with immediate 12 (one past the
last register slot) under the v0 dialect. -/
def c10s : Machine := { base with program := [0x8d, 0, 0, 0, 12, 0, 0, 0] }

/-- The decoded instruction of `c10s`. -/
def c10insn : Insn := { ptr := 0, opc := 0x8d, dst := 0, src := 0, off := 0, imm := 12 }

theorem claim10_witness : step c10s = none :=
  (claim10_callx_imm_unchecked c10s c10insn (by decide) rfl rfl rfl).2 (by decide)

lemma foldl_record_count (s : Machine) (F : Machine → Nat → Machine) (c : Nat → Bool) (m : Nat)
    (hF : ∀ st i, st.taint_state = s.taint_state → i < m →
      (F st i).taint_state = st.taint_state ∧
      (F st i).instruction_record.length =
        st.instruction_record.length + (if c i then 1 else 0)) :
    ∀ n, n ≤ m → ((List.range n).foldl F s).taint_state = s.taint_state ∧
      ((List.range n).foldl F s).instruction_record.length =
        s.instruction_record.length + (List.range n).countP c := by
  intro n
  induction n with
  | zero => intro _; exact ⟨rfl, by simp⟩
  | succ k ih =>
    intro hk
    obtain ⟨h1, h2⟩ := ih (Nat.le_of_succ_le hk)
    rw [List.range_succ, List.foldl_append]
    dsimp only [List.foldl]
    obtain ⟨g1, g2⟩ := hF _ k h1 (Nat.lt_of_succ_le hk)
    refine ⟨by rw [g1, h1], ?_⟩
    rw [g2, h2, List.countP_append]
    simp [List.countP_cons]
    cases hc : c k <;> simp [hc] <;> omega

lemma taint_imm_compare_record_length (s : Machine) (opc : Nat) (iv : List Nat) (dst : Nat) (dv : List Nat) :
    (taint_imm_compare s opc iv dst dv 8).instruction_record.length =
      s.instruction_record.length +
        (List.range 8).countP (fun i => (s.taint_state (uaddr dst i)).is_tainted) := by
  unfold taint_imm_compare
  dsimp only
  refine (foldl_record_count s _ (fun i => (s.taint_state (uaddr dst i)).is_tainted) 8 ?_ 8 le_rfl).2
  intro st i hst hi
  dsimp only
  constructor
  · split <;> rfl
  · rw [hst, address_mapping_getD dst 8 i _ hi]
    split
    case isTrue h => simp [h]
    case isFalse h => simp [h]

lemma taint_reg_compare_record_length (s : Machine) (opc src : Nat) (sv : List Nat) (dst : Nat) (dv : List Nat) :
    (taint_reg_compare s opc src sv dst dv 8).instruction_record.length =
      s.instruction_record.length +
        (List.range 8).countP (fun i =>
          (s.taint_state (uaddr dst i)).is_tainted || (s.taint_state (uaddr src i)).is_tainted) := by
  unfold taint_reg_compare
  dsimp only
  refine (foldl_record_count s _
    (fun i => (s.taint_state (uaddr dst i)).is_tainted || (s.taint_state (uaddr src i)).is_tainted)
    8 ?_ 8 le_rfl).2
  intro st i hst hi
  dsimp only
  constructor
  · split <;> rfl
  · rw [hst, address_mapping_getD dst 8 i _ hi, address_mapping_getD src 8 i _ hi]
    split
    case isTrue h => simp [h]
    case isFalse h => simp [h]

lemma step_cont_exists (s t : Machine) (npc : Nat) (h : stepRun s = some (.cont t npc)) :
    ∃ u, step s = some (true, u) ∧ u.instruction_record = t.instruction_record ∧
      u.taint_state = t.taint_state ∧ u.jump_log = t.jump_log ∧ u.reg = fset t.reg 11 npc :=
  ⟨{ t with reg := fset t.reg 11 npc }, by unfold step; rw [h], rfl, rfl, rfl, rfl⟩

/-- C6: a conditional-jump step appends one comparison record per byte
position (8 are examined) whose destination byte — or, for the register
variant, destination or source byte — is tainted, and none when all the
examined bytes are `Clean` (the count is then zero). -/
theorem claim6_cond_jump_records :
    (∀ (s : Machine) (insn : Insn) (pred : Nat → Bool),
      ¬(s.config.enable_instruction_meter = true ∧ s.due_insn_count ≥ s.previous_instruction_meter) →
      get_insn_unchecked s.program (s.reg 11) = some insn →
      insn.dst < 12 →
      dispatch (traceState (preState s)) insn (wrap64 (s.reg 11 + 1)) =
        cond_jmp_imm (traceState (preState s)) insn (wrap64 (s.reg 11 + 1)) pred →
      ∃ t, step s = some (true, t) ∧
        t.instruction_record.length = s.instruction_record.length +
          (List.range 8).countP (fun i => (s.taint_state (uaddr insn.dst i)).is_tainted)) ∧
    (∀ (s : Machine) (insn : Insn) (pred : Nat → Nat → Bool),
      ¬(s.config.enable_instruction_meter = true ∧ s.due_insn_count ≥ s.previous_instruction_meter) →
      get_insn_unchecked s.program (s.reg 11) = some insn →
      insn.dst < 12 → insn.src < 12 →
      dispatch (traceState (preState s)) insn (wrap64 (s.reg 11 + 1)) =
        cond_jmp_reg (traceState (preState s)) insn (wrap64 (s.reg 11 + 1)) pred →
      ∃ t, step s = some (true, t) ∧
        t.instruction_record.length = s.instruction_record.length +
          (List.range 8).countP (fun i =>
            (s.taint_state (uaddr insn.dst i)).is_tainted ||
              (s.taint_state (uaddr insn.src i)).is_tainted)) := by
  constructor
  · intro s insn pred hm hf hdst harm
    have hrun := stepRun_dispatch s insn hm hf
    rw [harm] at hrun
    unfold cond_jmp_imm at hrun
    rw [show regGet (traceState (preState s)).reg insn.dst = some (s.reg ⟨insn.dst, hdst⟩)
      from by simp [regGet, hdst]] at hrun
    dsimp only at hrun
    obtain ⟨u, hu1, hu2, _⟩ := step_cont_exists s _ _ hrun
    refine ⟨u, hu1, ?_⟩
    rw [hu2]
    simp [taint_imm_compare_record_length]
  · intro s insn pred hm hf hdst hsrc harm
    have hrun := stepRun_dispatch s insn hm hf
    rw [harm] at hrun
    unfold cond_jmp_reg at hrun
    rw [show regGet (traceState (preState s)).reg insn.dst = some (s.reg ⟨insn.dst, hdst⟩)
      from by simp [regGet, hdst]] at hrun
    dsimp only at hrun
    rw [show regGet (traceState (preState s)).reg insn.src = some (s.reg ⟨insn.src, hsrc⟩)
      from by simp [regGet, hsrc]] at hrun
    dsimp only at hrun
    obtain ⟨u, hu1, hu2, _⟩ := step_cont_exists s _ _ hrun
    refine ⟨u, hu1, ?_⟩
    rw [hu2]
    simp [taint_reg_compare_record_length]

/-- A machine about to execute `JEQ_IMM r1, 0, +1` whose register byte
`(r1, byte 0)` is tainted (origin 7); all other bytes are clean. -/
def c6s : Machine := { base with program := [0x15, 0x01, 1, 0, 0, 0, 0, 0], taint_state := fun a => if a = UnifiedAddress.Register 1 0 then .Tainted 7 else .Clean }

/-- The decoded instruction of `c6s`. -/
def c6insn : Insn := { ptr := 0, opc := 0x15, dst := 1, src := 0, off := 1, imm := 0 }

theorem claim6_witness : ∃ t, step c6s = some (true, t) ∧
    t.instruction_record.length = c6s.instruction_record.length + 1 := by
  obtain ⟨t, h1, h2⟩ := claim6_cond_jump_records.1 c6s c6insn
    (fun d => decide (d = intToU 64 c6insn.imm)) (by decide) rfl (by decide) rfl
  exact ⟨t, h1, by rw [h2]; rfl⟩

lemma foldl_propagate_taint (s : Machine) (ptr opc vm_addr dst w : Nat) (vs : List Nat)
    (hdst : dst < 12) (hvm : 12 ≤ vm_addr) :
    ∀ n, n ≤ w →
      (∀ m, ((List.range n).foldl (fun st i => propagate st ptr opc
            ((address_mapping vm_addr w).getD i (UnifiedAddress.Memory 0))
            ((address_mapping dst w).getD i (UnifiedAddress.Memory 0)) (vs.getD i 0)) s).taint_state
          (.Memory m) = s.taint_state (.Memory m)) ∧
      (∀ j, j < n → ((List.range n).foldl (fun st i => propagate st ptr opc
            ((address_mapping vm_addr w).getD i (UnifiedAddress.Memory 0))
            ((address_mapping dst w).getD i (UnifiedAddress.Memory 0)) (vs.getD i 0)) s).taint_state
          (.Register dst j) = s.taint_state (.Memory (wrap64 (vm_addr + j)))) := by
  intro n
  induction n with
  | zero => exact fun _ => ⟨fun m => rfl, fun j hj => absurd hj (Nat.not_lt_zero j)⟩
  | succ k ih =>
    intro hk
    obtain ⟨ih1, ih2⟩ := ih (Nat.le_of_succ_le hk)
    rw [List.range_succ, List.foldl_append]
    dsimp only [List.foldl]
    have hkw : k < w := Nat.lt_of_succ_le hk
    rw [address_mapping_getD vm_addr w k _ hkw, address_mapping_getD dst w k _ hkw]
    rw [show uaddr vm_addr k = UnifiedAddress.Memory (wrap64 (vm_addr + k)) from by
      unfold uaddr; rw [if_neg (by omega)]]
    rw [show uaddr dst k = UnifiedAddress.Register dst k from by
      unfold uaddr; rw [if_pos hdst]]
    constructor
    · intro m
      unfold propagate
      dsimp only
      rw [if_neg (by simp)]
      exact ih1 m
    · intro j hj
      unfold propagate
      dsimp only
      by_cases hjk : j = k
      · subst hjk
        rw [if_pos rfl]
        exact ih1 _
      · rw [if_neg (by simp [hjk])]
        exact ih2 j (by omega)

lemma taint_propagate_array_load_taint (s : Machine) (ptr opc vm_addr dst w : Nat) (vs : List Nat)
    (hdst : dst < 12) (hvm : 12 ≤ vm_addr) (j : Nat) (hj : j < w) :
    (taint_propagate_array s ptr opc vm_addr dst w vs).taint_state (.Register dst j) =
      s.taint_state (.Memory (wrap64 (vm_addr + j))) := by
  unfold taint_propagate_array
  dsimp only
  exact (foldl_propagate_taint s ptr opc vm_addr dst w vs hdst hvm w le_rfl).2 j hj

/-- C5: after a load of width `w` into `dst`, the taint of each register
byte `(dst, j)` for `j < w` equals the taint the memory byte
`vm_addr + j` had before the step (tainted origins propagate, clean
memory bytes leave the register byte clean). -/
theorem claim5_load_taint (s : Machine) (insn : Insn) (w v : Nat)
    (hm : ¬(s.config.enable_instruction_meter = true ∧ s.due_insn_count ≥ s.previous_instruction_meter))
    (hf : get_insn_unchecked s.program (s.reg 11) = some insn)
    (hsrc : insn.src < 12) (hdst : insn.dst < 12)
    (harm : dispatch (traceState (preState s)) insn (wrap64 (s.reg 11 + 1)) =
      load_arm (traceState (preState s)) insn w (wrap64 (s.reg 11 + 1)))
    (hload : s.mem.load w (vmAddrOf (regAt s insn.src) insn.off) = .ok v)
    (hvm : 12 ≤ vmAddrOf (regAt s insn.src) insn.off) :
    ∃ t, step s = some (true, t) ∧ ∀ j, j < w →
      t.taint_state (.Register insn.dst j) =
        s.taint_state (.Memory (wrap64 (vmAddrOf (regAt s insn.src) insn.off + j))) := by
  have hrun := stepRun_dispatch s insn hm hf
  rw [harm] at hrun
  unfold load_arm at hrun
  rw [show regGet (traceState (preState s)).reg insn.src = some (regAt s insn.src) from by
    simp [regAt, regGet, hsrc]] at hrun
  dsimp only at hrun
  rw [traceState_mem, preState_mem, hload] at hrun
  dsimp only at hrun
  rw [show regSet (traceState (preState s)).reg insn.dst v =
      some (fset (traceState (preState s)).reg ⟨insn.dst, hdst⟩ v) from by
    unfold regSet; rw [dif_pos hdst]; rfl] at hrun
  dsimp only at hrun
  obtain ⟨u, hu1, _, hu3, _⟩ := step_cont_exists s _ _ hrun
  refine ⟨u, hu1, ?_⟩
  intro j hj
  rw [hu3]
  rw [taint_propagate_array_load_taint _ _ _ _ _ _ _ hdst hvm j hj]
  simp

/-- A memory with one readable byte, `0xab` at address 400. -/
def c5mem : Mem := { read_byte := fun a => if a = 400 then some 171 else none, writable_byte := fun _ => false }

/-- A machine about to execute `LD_B_REG r1, [r2 + 0]` with `r2 = 400` and
the memory byte at 400 tainted (origin 3). -/
def c5s : Machine := { base with program := [0x71, 0x21, 0, 0, 0, 0, 0, 0], reg := fset base.reg 2 400, mem := c5mem, taint_state := fun a => if a = UnifiedAddress.Memory 400 then .Tainted 3 else .Clean }

/-- The decoded instruction of `c5s`. -/
def c5insn : Insn := { ptr := 0, opc := 0x71, dst := 1, src := 2, off := 0, imm := 0 }

theorem claim5_witness : ∃ t, step c5s = some (true, t) ∧
    t.taint_state (.Register 1 0) = .Tainted 3 := by
  obtain ⟨t, h1, h2⟩ := claim5_load_taint c5s c5insn 1 171 (by decide) rfl (by decide) (by decide)
    rfl rfl (by decide)
  refine ⟨t, h1, ?_⟩
  have h3 := h2 0 (by decide)
  rw [show (UnifiedAddress.Register 1 0) = (UnifiedAddress.Register c5insn.dst 0) from rfl, h3]
  rfl

@[simp] lemma trace_jump_version (s : Machine) (a b : Nat) : (trace_jump s a b).version = s.version := rfl

@[simp] lemma trace_jump_function_registry (s : Machine) (a b : Nat) : (trace_jump s a b).function_registry = s.function_registry := rfl

lemma push_frame_jump_log (s t : Machine) (ok : Bool) (h : push_frame s = some (t, ok)) :
    t.jump_log = s.jump_log := by
  unfold push_frame at h
  dsimp only at h
  split at h
  case isFalse => cases h
  case isTrue hlt =>
    split at h
    case isTrue => cases h; rfl
    case isFalse =>
      split at h
      case isTrue => cases h; rfl
      case isFalse => cases h; rfl

/-- C2 (amended): the pure jump instructions — `JA` and every conditional
jump — the successful BPF-to-BPF call paths of `CALL_IMM` and `CALL_REG`,
and the successful `RETURN`/`EXIT` frame-pop at nonzero call depth append
exactly one record to the jump tracer's log; the syscall paths (`SYSCALL`,
and `CALL_IMM` when the v0 loader-registry lookup hits) and the
terminating `EXIT` at call depth zero append none. -/
theorem claim2_jump_records :
    (∀ (s : Machine) (insn : Insn),
      ¬(s.config.enable_instruction_meter = true ∧ s.due_insn_count ≥ s.previous_instruction_meter) →
      get_insn_unchecked s.program (s.reg 11) = some insn →
      dispatch (traceState (preState s)) insn (wrap64 (s.reg 11 + 1)) =
        ja_arm (traceState (preState s)) insn (wrap64 (s.reg 11 + 1)) →
      ∃ t, step s = some (true, t) ∧ t.jump_log.length = s.jump_log.length + 1) ∧
    (∀ (s : Machine) (insn : Insn) (pred : Nat → Bool),
      ¬(s.config.enable_instruction_meter = true ∧ s.due_insn_count ≥ s.previous_instruction_meter) →
      get_insn_unchecked s.program (s.reg 11) = some insn →
      insn.dst < 12 →
      dispatch (traceState (preState s)) insn (wrap64 (s.reg 11 + 1)) =
        cond_jmp_imm (traceState (preState s)) insn (wrap64 (s.reg 11 + 1)) pred →
      ∃ t, step s = some (true, t) ∧ t.jump_log.length = s.jump_log.length + 1) ∧
    (∀ (s : Machine) (insn : Insn) (pred : Nat → Nat → Bool),
      ¬(s.config.enable_instruction_meter = true ∧ s.due_insn_count ≥ s.previous_instruction_meter) →
      get_insn_unchecked s.program (s.reg 11) = some insn →
      insn.dst < 12 → insn.src < 12 →
      dispatch (traceState (preState s)) insn (wrap64 (s.reg 11 + 1)) =
        cond_jmp_reg (traceState (preState s)) insn (wrap64 (s.reg 11 + 1)) pred →
      ∃ t, step s = some (true, t) ∧ t.jump_log.length = s.jump_log.length + 1) ∧
    (∀ (s : Machine) (insn : Insn),
      ¬(s.config.enable_instruction_meter = true ∧ s.due_insn_count ≥ s.previous_instruction_meter) →
      get_insn_unchecked s.program (s.reg 11) = some insn →
      dispatch (traceState (preState s)) insn (wrap64 (s.reg 11 + 1)) =
        syscall_arm (traceState (preState s)) insn (wrap64 (s.reg 11 + 1)) →
      ∃ b t, step s = some (b, t) ∧ t.jump_log = s.jump_log) ∧
    (∀ (s : Machine) (insn : Insn) (f : BuiltinFn),
      ¬(s.config.enable_instruction_meter = true ∧ s.due_insn_count ≥ s.previous_instruction_meter) →
      get_insn_unchecked s.program (s.reg 11) = some insn →
      dispatch (traceState (preState s)) insn (wrap64 (s.reg 11 + 1)) =
        call_imm_arm (traceState (preState s)) insn (wrap64 (s.reg 11 + 1)) →
      v0_syscall_lookup (traceState (preState s)) insn = some f →
      ∃ b t, step s = some (b, t) ∧ t.jump_log = s.jump_log) ∧
    (∀ (s : Machine) (insn : Insn),
      (s.config.enable_instruction_meter = true → s.due_insn_count < s.previous_instruction_meter) →
      get_insn_unchecked s.program (s.reg 11) = some insn →
      ((insn.opc = 0x95 ∧ s.version.static_syscalls = false) ∨
        (insn.opc = 0x9d ∧ s.version.static_syscalls = true)) →
      s.call_depth = 0 →
      ∃ t, step s = some (false, t) ∧ t.jump_log = s.jump_log ∧
        t.program_result = .ok (s.reg 0)) ∧
    (∀ (s : Machine) (insn : Insn) (target : Nat) (s1 : Machine) (npc : Nat),
      ¬(s.config.enable_instruction_meter = true ∧ s.due_insn_count ≥ s.previous_instruction_meter) →
      get_insn_unchecked s.program (s.reg 11) = some insn →
      dispatch (traceState (preState s)) insn (wrap64 (s.reg 11 + 1)) =
        call_imm_arm (traceState (preState s)) insn (wrap64 (s.reg 11 + 1)) →
      v0_syscall_lookup (traceState (preState s)) insn = none →
      s.function_registry (s.version.calc_call_imm_target_pc (s.reg 11) insn.imm) = some target →
      push_frame (traceState (preState s)) = some (s1, true) →
      check_pc s1 target = some npc →
      ∃ t, step s = some (true, t) ∧ t.jump_log.length = s.jump_log.length + 1) ∧
    (∀ (s : Machine) (insn : Insn) (target : Nat) (s1 : Machine) (npc : Nat),
      ¬(s.config.enable_instruction_meter = true ∧ s.due_insn_count ≥ s.previous_instruction_meter) →
      get_insn_unchecked s.program (s.reg 11) = some insn →
      dispatch (traceState (preState s)) insn (wrap64 (s.reg 11 + 1)) =
        call_reg_arm (traceState (preState s)) insn (wrap64 (s.reg 11 + 1)) →
      callx_target (traceState (preState s)) insn = some target →
      push_frame (traceState (preState s)) = some (s1, true) →
      check_pc s1 (wsub64 target s1.program_vm_addr / 8) = some npc →
      ¬(s1.version.static_syscalls = true ∧ s1.function_registry (toU32 npc) = none) →
      ∃ t, step s = some (true, t) ∧ t.jump_log.length = s.jump_log.length + 1) ∧
    (∀ (s : Machine) (insn : Insn) (frame : CallFrame),
      ¬(s.config.enable_instruction_meter = true ∧ s.due_insn_count ≥ s.previous_instruction_meter) →
      get_insn_unchecked s.program (s.reg 11) = some insn →
      ((insn.opc = 0x95 ∧ s.version.static_syscalls = false) ∨
        (insn.opc = 0x9d ∧ s.version.static_syscalls = true)) →
      s.call_depth ≠ 0 →
      s.call_frames.get? (s.call_depth - 1) = some frame →
      frame.target_pc * 8 < 18446744073709551616 ∧ frame.target_pc * 8 + 8 ≤ s.program.length →
      ∃ t, step s = some (true, t) ∧ t.jump_log.length = s.jump_log.length + 1) := by
  refine ⟨?_, ?_, ?_, ?_, ?_, ?_, ?_, ?_, ?_⟩
  · intro s insn hm hf harm
    have hrun := stepRun_dispatch s insn hm hf
    rw [harm] at hrun
    unfold ja_arm at hrun
    dsimp only at hrun
    obtain ⟨u, hu1, _, _, hu4, _⟩ := step_cont_exists s _ _ hrun
    refine ⟨u, hu1, ?_⟩
    rw [hu4]
    simp
  · intro s insn pred hm hf hdst harm
    have hrun := stepRun_dispatch s insn hm hf
    rw [harm] at hrun
    unfold cond_jmp_imm at hrun
    rw [show regGet (traceState (preState s)).reg insn.dst = some (s.reg ⟨insn.dst, hdst⟩)
      from by simp [regGet, hdst]] at hrun
    dsimp only at hrun
    obtain ⟨u, hu1, _, _, hu4, _⟩ := step_cont_exists s _ _ hrun
    refine ⟨u, hu1, ?_⟩
    rw [hu4]
    simp
  · intro s insn pred hm hf hdst hsrc harm
    have hrun := stepRun_dispatch s insn hm hf
    rw [harm] at hrun
    unfold cond_jmp_reg at hrun
    rw [show regGet (traceState (preState s)).reg insn.dst = some (s.reg ⟨insn.dst, hdst⟩)
      from by simp [regGet, hdst]] at hrun
    dsimp only at hrun
    rw [show regGet (traceState (preState s)).reg insn.src = some (s.reg ⟨insn.src, hsrc⟩)
      from by simp [regGet, hsrc]] at hrun
    dsimp only at hrun
    obtain ⟨u, hu1, _, _, hu4, _⟩ := step_cont_exists s _ _ hrun
    refine ⟨u, hu1, ?_⟩
    rw [hu4]
    simp
  · intro s insn hm hf harm
    have hrun := stepRun_dispatch s insn hm hf
    rw [harm] at hrun
    unfold syscall_arm at hrun
    cases hreg : (traceState (preState s)).loader_registry (intToU 32 insn.imm) with
    | none =>
      rw [hreg] at hrun
      dsimp only at hrun
      obtain ⟨u, hu1, _, _, hu4, _⟩ := step_cont_exists s _ _ hrun
      refine ⟨true, u, hu1, ?_⟩
      rw [hu4]
      simp
    | some f =>
      rw [hreg] at hrun
      dsimp only at hrun
      cases hpr : (dispatch_syscall (traceState (preState s)) f).program_result with
      | ok v =>
        rw [hpr] at hrun
        dsimp only at hrun
        obtain ⟨u, hu1, _, _, hu4, _⟩ := step_cont_exists s _ _ hrun
        refine ⟨true, u, hu1, ?_⟩
        rw [hu4]
        simp
      | error e =>
        rw [hpr] at hrun
        dsimp only at hrun
        refine ⟨false, dispatch_syscall (traceState (preState s)) f, ?_, by simp⟩
        unfold step
        rw [hrun]
  · intro s insn f hm hf harm hlook
    have hrun := stepRun_dispatch s insn hm hf
    rw [harm] at hrun
    unfold call_imm_arm at hrun
    rw [hlook] at hrun
    dsimp only at hrun
    cases hpr : (dispatch_syscall (traceState (preState s)) f).program_result with
    | ok v =>
      rw [hpr] at hrun
      dsimp only at hrun
      obtain ⟨u, hu1, _, _, hu4, _⟩ := step_cont_exists s _ _ hrun
      refine ⟨true, u, hu1, ?_⟩
      rw [hu4]
      simp
    | error e =>
      rw [hpr] at hrun
      dsimp only at hrun
      refine ⟨false, dispatch_syscall (traceState (preState s)) f, ?_, by simp⟩
      unfold step
      rw [hrun]
  · intro s insn hm hf hop hdep
    have hm' : ¬(s.config.enable_instruction_meter = true ∧ s.due_insn_count ≥ s.previous_instruction_meter) := by
      rintro ⟨a, b⟩
      exact absurd b (not_le.mpr (hm a))
    have hdec : decodeArm s.version insn.opc = .RETURN_EXIT := by
      rcases hop with ⟨ho, hst⟩ | ⟨ho, hst⟩ <;> rw [ho] <;> simp [decodeArm, hst]
    have hlegal : ¬((insn.opc = 0x95 ∧ s.version.static_syscalls = true) ∨
        (insn.opc = 0x9d ∧ s.version.static_syscalls = false)) := by
      rcases hop with ⟨ho, hst⟩ | ⟨ho, hst⟩ <;> rw [ho] <;> simp [hst]
    have hmeter2 : ¬(s.config.enable_instruction_meter = true ∧
        wrap64 (s.due_insn_count + 1) > s.previous_instruction_meter) := by
      rintro ⟨a, b⟩
      have h1 : wrap64 (s.due_insn_count + 1) ≤ s.due_insn_count + 1 := Nat.mod_le _ _
      have h2 := hm a
      omega
    have hrun : stepRun s = some (.finished (traceState (preState s)) ((traceState (preState s)).reg 0)) := by
      rw [stepRun_dispatch s insn hm' hf]
      unfold dispatch
      simp only [traceState_version, preState_version]
      rw [hdec]
      dsimp only
      unfold exit_arm
      rw [if_neg (by simpa using hlegal)]
      dsimp only
      rw [if_pos (by simpa using hdep)]
      rw [if_neg (by simpa using hmeter2)]
    refine ⟨{ traceState (preState s) with program_result := .ok ((traceState (preState s)).reg 0) }, ?_, ?_, ?_⟩
    · unfold step
      rw [hrun]
    · simp
    · simp
  · intro s insn target s1 npc hm hf harm hlook hreg hpush hpc
    have hrun := stepRun_dispatch s insn hm hf
    rw [harm] at hrun
    unfold call_imm_arm at hrun
    rw [hlook] at hrun
    dsimp only at hrun
    rw [show (traceState (preState s)).function_registry
        ((traceState (preState s)).version.calc_call_imm_target_pc ((traceState (preState s)).reg 11) insn.imm) =
        some target from by simpa using hreg] at hrun
    dsimp only at hrun
    rw [hpush] at hrun
    dsimp only at hrun
    rw [if_neg (by simp)] at hrun
    rw [hpc] at hrun
    dsimp only at hrun
    obtain ⟨u, hu1, _, _, hu4, _⟩ := step_cont_exists s _ _ hrun
    refine ⟨u, hu1, ?_⟩
    rw [hu4]
    simp [push_frame_jump_log _ _ _ hpush]
  · intro s insn target s1 npc hm hf harm htgt hpush hpc hstat
    have hrun := stepRun_dispatch s insn hm hf
    rw [harm] at hrun
    unfold call_reg_arm at hrun
    rw [htgt] at hrun
    dsimp only at hrun
    rw [hpush] at hrun
    dsimp only at hrun
    rw [if_neg (by simp)] at hrun
    rw [hpc] at hrun
    dsimp only at hrun
    rw [if_neg (by simpa using hstat)] at hrun
    obtain ⟨u, hu1, _, _, hu4, _⟩ := step_cont_exists s _ _ hrun
    refine ⟨u, hu1, ?_⟩
    rw [hu4]
    simp [push_frame_jump_log _ _ _ hpush]
  · intro s insn frame hm hf hop hdep hframe hpc
    have hdec : decodeArm s.version insn.opc = .RETURN_EXIT := by
      rcases hop with ⟨ho, hst⟩ | ⟨ho, hst⟩ <;> rw [ho] <;> simp [decodeArm, hst]
    have hlegal : ¬((insn.opc = 0x95 ∧ s.version.static_syscalls = true) ∨
        (insn.opc = 0x9d ∧ s.version.static_syscalls = false)) := by
      rcases hop with ⟨ho, hst⟩ | ⟨ho, hst⟩ <;> rw [ho] <;> simp [hst]
    have hrun := stepRun_dispatch s insn hm hf
    unfold dispatch at hrun
    simp only [traceState_version, preState_version] at hrun
    rw [hdec] at hrun
    dsimp only at hrun
    unfold exit_arm at hrun
    rw [if_neg (by simpa using hlegal)] at hrun
    dsimp only at hrun
    rw [if_neg (by simpa using hdep)] at hrun
    try dsimp only at hrun
    rw [show (traceState (preState s)).call_frames.get? ((traceState (preState s)).call_depth - 1) =
      some frame from by simpa using hframe] at hrun
    try dsimp only at hrun
    unfold check_pc at hrun
    try dsimp only at hrun
    simp only [traceState_program, preState_program] at hrun
    rw [if_pos hpc] at hrun
    obtain ⟨u, hu1, _, _, hu4, _⟩ := step_cont_exists s _ _ hrun
    refine ⟨u, hu1, ?_⟩
    rw [hu4]
    simp

/-- A machine about to execute the terminating `EXIT` (a control-flow
instruction) at call depth zero. -/
def c2s : Machine := { base with program := [0x95, 0, 0, 0, 0, 0, 0, 0] }

/-- The state after the terminating step of `c2s`. -/
def c2t : Machine := ((step c2s).getD (true, c2s)).2

/-- C2 counterexample: the terminating `EXIT` is a control-flow step that
appends no jump record — its jump log stays empty — refuting "every
control-flow opcode appends exactly one record". -/
theorem claim2_counterexample : step c2s = some (false, c2t) ∧ c2t.jump_log = [] ∧
    c2t.program_result = .ok (c2s.reg 0) := ⟨rfl, rfl, rfl⟩

/-- A machine about to execute `JA +1`. -/
def c2j : Machine := { base with program := [0x05, 0, 1, 0, 0, 0, 0, 0] }

/-- The decoded instruction of `c2j`. -/
def c2jinsn : Insn := { ptr := 0, opc := 0x05, dst := 0, src := 0, off := 1, imm := 0 }

theorem claim2_witness : ∃ t, step c2j = some (true, t) ∧
    t.jump_log.length = c2j.jump_log.length + 1 :=
  claim2_jump_records.1 c2j c2jinsn (by decide) rfl rfl
